import Mathlib

/-!
# countryCurrency: the refresh pipeline

A shallow embedding of the Go packages `internal/models`, `internal/services`,
`internal/database` and `internal/handlers`, and the properties of the
reconciliation step (`transformCountry`, `calculateEstimatedGDP`) and of the refresh
cycle (`RefreshCountries`) proved over it.

Conventions of the embedding:

* a Go `*T` field that is either `nil` or points to a value is an `Option T`;
* a Go `error` result is an `Option GoError` (`none` is `nil`), a `(T, error)` result is an
  `Except GoError T`;
* `int64` is `Int` (no arithmetic is done on it, it is only copied and converted);
* `float64` is the type `Float64` below, IEEE-754 binary64 with round-to-nearest-even,
  every operation rounded on its own;
* a `map[string]float64` is its lookup function `String → Option Float64`;
* what the code obtains from outside (HTTP exchanges, the clock, the random source, the
  database driver, the file system) is read from an explicit environment `Env`;
* how the database compares strings (the collation of the tables and the SQL function
  `LOWER`) is a parameter `Collation` of the model, and the properties are proved for
  every value of it.
-/

namespace CountryCurrency

/-! ## float64 -/

/-- A Go `float64` value. A finite value carries its sign and its exact magnitude (a
non-negative rational), which keeps `-0` apart from `+0`. -/
inductive Float64 where
  | nan : Float64
  | inf (neg : Bool) : Float64
  | fin (neg : Bool) (mag : ℚ) : Float64
  deriving DecidableEq

/-- The integer nearest to `x`, the even one of the two when `x` is halfway. -/
def roundHalfEven (x : ℚ) : ℤ :=
  if x - ⌊x⌋ < 1 / 2 then ⌊x⌋
  else if 1 / 2 < x - ⌊x⌋ then ⌊x⌋ + 1
  else if ⌊x⌋ % 2 = 0 then ⌊x⌋ else ⌊x⌋ + 1

namespace Float64

/-- The exponent of the unit in the last place for a magnitude: 52 below the binary
exponent of the magnitude, which is not taken below the least normal exponent -1022
(subnormal numbers share the spacing `2 ^ (-1074)`). -/
def quantumExp (mag : ℚ) : ℤ := max (Int.log 2 mag) (-1022) - 52

/-- The magnitude rounded to the nearest multiple of its unit in the last place, ties to
the even multiple. -/
def roundMag (mag : ℚ) : ℚ := roundHalfEven (mag / 2 ^ quantumExp mag) * 2 ^ quantumExp mag

/-- The binary64 value of an exact result given by sign and magnitude: the rounded
magnitude, or an infinity when that reaches `2 ^ 1024`. -/
def ofExact (neg : Bool) (mag : ℚ) : Float64 :=
  if 2 ^ 1024 ≤ roundMag mag then inf neg else fin neg (roundMag mag)

/-- The rational value of a finite sign and magnitude. -/
def signed (neg : Bool) (mag : ℚ) : ℚ := if neg then -mag else mag

/-- The Go conversion `float64(n)` of an `int64`. -/
def ofInt (n : Int) : Float64 := ofExact (decide (n < 0)) |(n : ℚ)|

/-- The Go sum `x + y` of two `float64`. -/
def add : Float64 → Float64 → Float64
  | nan, _ => nan
  | _, nan => nan
  | inf a, inf b => if a = b then inf a else nan
  | inf a, fin _ _ => inf a
  | fin _ _, inf b => inf b
  | fin a x, fin b y =>
    if signed a x + signed b y = 0 then fin (a && b) 0
    else ofExact (decide (signed a x + signed b y < 0)) |signed a x + signed b y|

/-- The Go product `x * y` of two `float64`. -/
def mul : Float64 → Float64 → Float64
  | nan, _ => nan
  | _, nan => nan
  | inf a, inf b => inf (xor a b)
  | inf a, fin b y => if y = 0 then nan else inf (xor a b)
  | fin a x, inf b => if x = 0 then nan else inf (xor a b)
  | fin a x, fin b y => ofExact (xor a b) (x * y)

/-- The Go quotient `x / y` of two `float64`. -/
def div : Float64 → Float64 → Float64
  | nan, _ => nan
  | _, nan => nan
  | inf _, inf _ => nan
  | inf a, fin b _ => inf (xor a b)
  | fin a _, inf b => fin (xor a b) 0
  | fin a x, fin b y =>
    if y = 0 then (if x = 0 then nan else inf (xor a b))
    else ofExact (xor a b) (x / y)

/-- A non-negative finite value in the half-open interval `[0.0, 1.0)`: what
`(*rand.Rand).Float64` is documented to return. -/
def IsUnitDraw : Float64 → Prop
  | fin neg mag => neg = false ∧ 0 ≤ mag ∧ mag < 1
  | _ => False

/-- A finite value of positive sign with magnitude between `lo` and `hi`, both included. -/
def Within (lo hi : ℚ) : Float64 → Prop
  | fin neg mag => neg = false ∧ lo ≤ mag ∧ mag ≤ hi
  | _ => False

end Float64

/-! ## internal/models/country.go -/

/-- A Go `time.Time`, as nanoseconds since the Unix epoch. -/
abbrev Time := Int

/-- The element type of `CountryAPIResponse.Currencies`. -/
structure CurrencyDescriptor where
  Code : String
  Name : String
  Symbol : String
  deriving DecidableEq

/-- The struct `models.CountryAPIResponse`: one raw country entry. -/
structure CountryAPIResponse where
  Name : String
  Capital : String
  Region : String
  Population : Int
  Flag : String
  Currencies : List CurrencyDescriptor
  deriving DecidableEq

/-- The struct `models.Country`: one normalized record. -/
structure Country where
  ID : Int
  Name : String
  Capital : Option String
  Region : Option String
  Population : Int
  CurrencyCode : Option String
  ExchangeRate : Option Float64
  EstimatedGDP : Option Float64
  FlagURL : Option String
  LastRefreshedAt : Time
  deriving DecidableEq

/-! ## internal/services/country_service.go: the reconciliation step -/

namespace CountryService

/-- The expression `1000 + r.Float64()*1000`, where `draw` is the value of `r.Float64()`. -/
def multiplier (draw : Float64) : Float64 :=
  Float64.add (Float64.fin false 1000) (Float64.mul draw (Float64.fin false 1000))

/-- The method `calculateEstimatedGDP`. The random source it creates is seeded from the
clock; `draw` is the value its `Float64()` call returns. -/
def calculateEstimatedGDP (draw : Float64) (population : Int) (exchangeRate : Float64) :
    Float64 :=
  Float64.div (Float64.mul (Float64.ofInt population) (multiplier draw)) exchangeRate

/-- The method `transformCountry`. `draw` is the random draw of the one call of
`calculateEstimatedGDP` it may make. -/
def transformCountry (draw : Float64) (apiCountry : CountryAPIResponse)
    (exchangeRates : String → Option Float64) (refreshTime : Time) : Country :=
  let country : Country :=
    { ID := 0, Name := apiCountry.Name, Capital := none, Region := none,
      Population := apiCountry.Population, CurrencyCode := none, ExchangeRate := none,
      EstimatedGDP := none, FlagURL := none, LastRefreshedAt := refreshTime }
  let country :=
    if apiCountry.Capital ≠ "" then { country with Capital := some apiCountry.Capital }
    else country
  let country :=
    if apiCountry.Region ≠ "" then { country with Region := some apiCountry.Region }
    else country
  let country :=
    if apiCountry.Flag ≠ "" then { country with FlagURL := some apiCountry.Flag }
    else country
  match apiCountry.Currencies with
  | [] => country
  | first :: _ =>
    if first.Code ≠ "" then
      match exchangeRates first.Code with
      | some rate =>
        { country with
          CurrencyCode := some first.Code
          ExchangeRate := some rate
          EstimatedGDP := some (calculateEstimatedGDP draw apiCountry.Population rate) }
      | none =>
        { country with CurrencyCode := some first.Code, ExchangeRate := none, EstimatedGDP := none }
    else country

end CountryService

/-! ## Go errors -/

/-- A Go `error` value: the sentinel `sql.ErrNoRows`, an error with a plain message, or an
error made by `fmt.Errorf` with a `%w` verb at the end of its format. -/
inductive GoError where
  | errNoRows : GoError
  | text (msg : String) : GoError
  | wrapped (msg : String) (cause : GoError) : GoError
  deriving DecidableEq

/-- The method `Error()` of a Go `error`. -/
def GoError.Error : GoError → String
  | errNoRows => "sql: no rows in result set"
  | text msg => msg
  | wrapped msg cause => msg ++ cause.Error

/-! ## internal/services/api_client.go -/

/-- The struct `models.ExchangeRateResponse`. -/
structure ExchangeRateResponse where
  Result : String
  Rates : String → Option Float64

/-- What happens to one HTTP GET of the API client: building the request fails, the
transport fails, or a response arrives with a status code and a body whose JSON decoding
into the target type fails or yields a value. -/
inductive HttpExchange (α : Type) where
  | requestError (err : GoError) : HttpExchange α
  | transportError (err : GoError) : HttpExchange α
  | response (statusCode : Nat) (decoded : Except GoError α) : HttpExchange α

namespace APIClient

/-- The method `FetchCountries`, over the exchange with the countries API. -/
def FetchCountries (exchange : HttpExchange (List CountryAPIResponse)) :
    Except GoError (List CountryAPIResponse) :=
  match exchange with
  | .requestError err => .error (.wrapped "failed to create request: " err)
  | .transportError err => .error (.wrapped "failed to fetch countries: " err)
  | .response statusCode decoded =>
    if statusCode ≠ 200 then
      .error (.text ("countries API returned status " ++ toString statusCode))
    else
      match decoded with
      | .error err => .error (.wrapped "failed to decode countries response: " err)
      | .ok countries => .ok countries

/-- The method `FetchExchangeRates`, over the exchange with the exchange rate API. -/
def FetchExchangeRates (exchange : HttpExchange ExchangeRateResponse) :
    Except GoError (String → Option Float64) :=
  match exchange with
  | .requestError err => .error (.wrapped "failed to create request: " err)
  | .transportError err => .error (.wrapped "failed to fetch exchange rates: " err)
  | .response statusCode decoded =>
    if statusCode ≠ 200 then
      .error (.text ("exchange rate API returned status " ++ toString statusCode))
    else
      match decoded with
      | .error err => .error (.wrapped "failed to decode exchange rates response: " err)
      | .ok result => .ok result.Rates

end APIClient

/-! ## internal/database: the tables and internal/database/repository.go -/

/-- How the database compares strings, which the repository does not decide: `key` is
the weight key of the collation `utf8mb4_unicode_ci` of the tables and of the connection
(two strings are equal for the database exactly when their keys are equal, and strings
are ordered by their keys), and `lower` is the SQL function `LOWER`. Both are taken as
given: every property below holds whatever they are. -/
structure Collation where
  key : String → String
  lower : String → String

/-- The value `LOWER(s)` as the database compares it. -/
def Collation.lowerKey (coll : Collation) (s : String) : String := coll.key (coll.lower s)

/-- The database: the rows of table `countries` in insertion order, the next value of its
`AUTO_INCREMENT` column, and the value of the `last_refreshed_at` row of table `metadata`
(absent when the row does not exist). -/
structure Database where
  countries : List Country
  autoIncrement : Int
  lastRefreshedAt : Option Time
  deriving DecidableEq

namespace Database

/-- The row that the `ON DUPLICATE KEY UPDATE` clause leaves in place of `row` when
`country` is upserted: a row whose name is equal for the unique index takes every column
of `country` but `id` and `name`, any other row is kept. -/
def updateRow (coll : Collation) (country : Country) (row : Country) : Country :=
  if coll.key row.Name = coll.key country.Name then
    { country with ID := row.ID, Name := row.Name }
  else row

/-- The effect of the statement of `UpsertCountry` when it is executed: the row whose
name is equal for the unique index is updated in place, or else a new row is appended
with the next id. -/
def upsertRow (coll : Collation) (db : Database) (country : Country) : Database :=
  if db.countries.any (fun row => coll.key row.Name = coll.key country.Name) then
    { db with countries := db.countries.map (updateRow coll country) }
  else
    { db with
      countries := db.countries ++ [{ country with ID := db.autoIncrement }]
      autoIncrement := db.autoIncrement + 1 }

/-- The id that `LastInsertId` reports after the statement of `UpsertCountry`: the id of
the row that was updated, or the id given to the new row. -/
def upsertID (coll : Collation) (db : Database) (country : Country) : Int :=
  match db.countries.find? (fun row => coll.key row.Name = coll.key country.Name) with
  | some row => row.ID
  | none => db.autoIncrement

end Database

/-- What the database driver does with the statement of `UpsertCountry`: `db.Exec` fails
and nothing is written, or the statement is executed and `LastInsertId` fails, or both
succeed. -/
inductive ExecOutcome where
  | execError (err : GoError) : ExecOutcome
  | lastInsertIdError (err : GoError) : ExecOutcome
  | done : ExecOutcome
  deriving DecidableEq

namespace Repository

/-- The method `UpsertCountry`: the returned error, the record after the call (its `ID` is
assigned on success) and the database after the call. -/
def UpsertCountry (coll : Collation) (outcome : ExecOutcome) (country : Country)
    (db : Database) : Option GoError × Country × Database :=
  match outcome with
  | .execError err => (some (.wrapped "failed to upsert country: " err), country, db)
  | .lastInsertIdError err =>
    (some (.wrapped "failed to get last insert id: " err), country,
      db.upsertRow coll country)
  | .done =>
    (none, { country with ID := db.upsertID coll country }, db.upsertRow coll country)

/-- The method `UpdateLastRefreshedAt`: `execError` is the error of `db.Exec`, `dbNow` the
value of `NOW()`. The `UPDATE` changes the metadata row only where it exists. -/
def UpdateLastRefreshedAt (execError : Option GoError) (dbNow : Time) (db : Database) :
    Option GoError × Database :=
  match execError with
  | some err => (some (.wrapped "failed to update last refresh time: " err), db)
  | none => (none, { db with lastRefreshedAt := db.lastRefreshedAt.map (fun _ => dbNow) })

end Repository

/-! ## internal/services/image_service.go -/

/-- The content of the summary image file: the text lines drawn on the canvas. -/
structure Image where
  lines : List String
  deriving DecidableEq

/-- What one call of `GenerateSummaryImage` does: it fails before the image file is
opened for writing (a repository read, `os.MkdirAll` or `os.Create` fails), or
`png.Encode` fails after `os.Create` truncated the file, leaving `file` behind, or the
image `file` is written. -/
inductive RenderOutcome where
  | failedBeforeWrite (err : GoError) : RenderOutcome
  | failedEncode (err : GoError) (file : Image) : RenderOutcome
  | done (file : Image) : RenderOutcome
  deriving DecidableEq

/-- One call made by the refresh cycle on the repository or the image service, with the
error it returned. -/
inductive Call where
  | upsertCountry (country : Country) (err : Option GoError) : Call
  | updateLastRefreshedAt (err : Option GoError) : Call
  | generateSummaryImage (err : Option GoError) : Call
  deriving DecidableEq

/-- The state the refresh cycle acts on: the database, the summary image file (absent
until first written), the lines printed on standard output, and the record of the calls
made on the repository and the image service, oldest first. -/
structure World where
  db : Database
  summaryImage : Option Image
  stdout : List String
  calls : List Call
  deriving DecidableEq

namespace ImageService

/-- The method `GenerateSummaryImage`, by its outcome. -/
def GenerateSummaryImage (outcome : RenderOutcome) (w : World) : Option GoError × World :=
  match outcome with
  | .failedBeforeWrite err => (some err, w)
  | .failedEncode err file => (some err, { w with summaryImage := some file })
  | .done file => (none, { w with summaryImage := some file })

end ImageService

/-! ## internal/services/country_service.go: the refresh cycle -/

/-- What one refresh cycle obtains from outside the program: the two HTTP exchanges, the
value of `time.Now()` before the loop, the random draw and the driver outcome of the
upsert in each iteration of the loop (by position, from 0), the outcome of the metadata
update with the value of `NOW()`, the outcome of the image generation, and the way the
database compares strings. -/
structure Env where
  collation : Collation
  countriesExchange : HttpExchange (List CountryAPIResponse)
  ratesExchange : HttpExchange ExchangeRateResponse
  now : Time
  draw : Nat → Float64
  upsertExec : Nat → ExecOutcome
  updateExec : Option GoError
  dbNow : Time
  render : RenderOutcome

namespace CountryService

/-- The body of the loop of `RefreshCountries`, in iteration `i`: the entry is
transformed, the record is upserted, and a failure is printed as a warning. -/
def persistOne (env : Env) (exchangeRates : String → Option Float64) (i : Nat)
    (apiCountry : CountryAPIResponse) (w : World) : World :=
  let country := transformCountry (env.draw i) apiCountry exchangeRates env.now
  match Repository.UpsertCountry env.collation (env.upsertExec i) country w.db with
  | (some err, failed, db) =>
    { w with
      db := db
      calls := w.calls ++ [Call.upsertCountry country (some err)]
      stdout := w.stdout ++
        ["Warning: failed to upsert country " ++ failed.Name ++ ": " ++ err.Error ++ "\n"] }
  | (none, _, db) =>
    { w with db := db, calls := w.calls ++ [Call.upsertCountry country none] }

/-- The loop of `RefreshCountries` over the fetched entries, from iteration `i` on. -/
def persistLoop (env : Env) (exchangeRates : String → Option Float64) :
    Nat → List CountryAPIResponse → World → World
  | _, [], w => w
  | i, apiCountry :: rest, w =>
    persistLoop env exchangeRates (i + 1) rest (persistOne env exchangeRates i apiCountry w)

/-- The method `RefreshCountries`: the returned error and the state after the call. -/
def RefreshCountries (env : Env) (w : World) : Option GoError × World :=
  match APIClient.FetchCountries env.countriesExchange with
  | .error err => (some (.wrapped "could not fetch data from countries API: " err), w)
  | .ok countriesData =>
    match APIClient.FetchExchangeRates env.ratesExchange with
    | .error err => (some (.wrapped "could not fetch data from exchange rate API: " err), w)
    | .ok exchangeRates =>
      let w1 := persistLoop env exchangeRates 0 countriesData w
      match Repository.UpdateLastRefreshedAt env.updateExec env.dbNow w1.db with
      | (some err, db) =>
        (some (.wrapped "failed to update refresh timestamp: " err),
          { w1 with db := db, calls := w1.calls ++ [Call.updateLastRefreshedAt (some err)] })
      | (none, db) =>
        let w2 : World :=
          { w1 with db := db, calls := w1.calls ++ [Call.updateLastRefreshedAt none] }
        match ImageService.GenerateSummaryImage env.render w2 with
        | (some err, w3) =>
          (none,
            { w3 with
              calls := w3.calls ++ [Call.generateSummaryImage (some err)]
              stdout := w3.stdout ++
                ["Warning: failed to generate summary image: " ++ err.Error ++ "\n"] })
        | (none, w3) =>
          (none, { w3 with calls := w3.calls ++ [Call.generateSummaryImage none] })

end CountryService

/-! ## internal/handlers/country_handler.go -/

/-- The value of the field `Details` of `models.ErrorResponse`: omitted, a string, or the
map `models.ValidationErrorDetails`. -/
inductive Details where
  | omitted : Details
  | text (s : String) : Details
  | fields (kv : List (String × String)) : Details
  deriving DecidableEq

/-- The JSON body of a response: a `models.ErrorResponse`, a `gin.H` with the one key
`message`, or no body. -/
inductive Body where
  | errorResponse (Error : String) (details : Details) : Body
  | message (msg : String) : Body
  | empty : Body
  deriving DecidableEq

/-- An HTTP response written by a handler. -/
structure Response where
  status : Nat
  body : Body
  deriving DecidableEq

namespace CountryHandler

/-- The handler `RefreshCountries`: the response it writes and the state after the call. -/
def RefreshCountries (env : Env) (w : World) : Response × World :=
  match CountryService.RefreshCountries env w with
  | (some err, w1) =>
    ({ status := 503
       body := .errorResponse "External data source unavailable" (.text err.Error) }, w1)
  | (none, w1) =>
    ({ status := 200, body := .message "Countries refreshed successfully" }, w1)

end CountryHandler

/-! ## internal/database/repository.go: listing and deleting -/

namespace Float64

/-- The place of a value in the order by which a `DOUBLE` column is sorted: a tier and,
for a finite value, its rational value. The column holds finite values only; the tiers
place the other values of the type below and above them. -/
def sortKey : Float64 → ℤ × ℚ
  | nan => (-2, 0)
  | inf true => (-1, 0)
  | fin neg mag => (0, signed neg mag)
  | inf false => (1, 0)

/-- The comparison `x <= y` of the sort order of a `DOUBLE` column. -/
def le (x y : Float64) : Bool :=
  decide (x.sortKey.1 < y.sortKey.1 ∨
    (x.sortKey.1 = y.sortKey.1 ∧ x.sortKey.2 ≤ y.sortKey.2))

end Float64

/-- What the database driver does with the query of `GetAllCountries`: `db.Query` fails,
`rows.Scan` fails on a row, the iteration ends with an error, or all rows are read. -/
inductive QueryOutcome where
  | queryError (err : GoError) : QueryOutcome
  | scanError (err : GoError) : QueryOutcome
  | rowsError (err : GoError) : QueryOutcome
  | done : QueryOutcome
  deriving DecidableEq

/-- What the database driver does with the statement of `DeleteCountryByName`: `db.Exec`
fails and nothing is deleted, or the statement is executed and `RowsAffected` fails, or
both succeed. -/
inductive DeleteOutcome where
  | execError (err : GoError) : DeleteOutcome
  | rowsAffectedError (err : GoError) : DeleteOutcome
  | done : DeleteOutcome
  deriving DecidableEq

namespace Repository

/-- The condition `LOWER(column) = LOWER(?)` on a nullable column: false for `NULL`. -/
def columnEquals (coll : Collation) (column : Option String) (value : String) : Bool :=
  match column with
  | none => false
  | some v => decide (coll.lowerKey v = coll.lowerKey value)

/-- The `WHERE` clause built by `GetAllCountries`: each filter applies when its value is
not empty. -/
def whereClause (coll : Collation) (region currency : String) (row : Country) : Bool :=
  (decide (region = "") || columnEquals coll row.Region region) &&
    (decide (currency = "") || columnEquals coll row.CurrencyCode currency)

/-- Row `a` may stand before row `b` under `ORDER BY estimated_gdp IS NULL, estimated_gdp`
with the direction `DESC` or `ASC`: rows without a value come last, among themselves in
any order. -/
def gdpOrder (desc : Bool) (a b : Country) : Bool :=
  match a.EstimatedGDP, b.EstimatedGDP with
  | none, none => true
  | none, some _ => false
  | some _, none => true
  | some x, some y => if desc then Float64.le y x else Float64.le x y

/-- Row `a` may stand before row `b` under `ORDER BY population`. -/
def populationOrder (desc : Bool) (a b : Country) : Bool :=
  if desc then decide (b.Population ≤ a.Population) else decide (a.Population ≤ b.Population)

/-- Row `a` may stand before row `b` under `ORDER BY name`, names ordered by the
collation of the column. -/
def nameOrder (coll : Collation) (desc : Bool) (a b : Country) : Bool :=
  if desc then decide (coll.key b.Name ≤ coll.key a.Name)
  else decide (coll.key a.Name ≤ coll.key b.Name)

/-- The `ORDER BY` clause chosen by the `switch` of `GetAllCountries`. Rows that the
clause does not tell apart keep their table order. -/
def orderBy (coll : Collation) (sort : String) (rows : List Country) : List Country :=
  if sort = "gdp_desc" then rows.insertionSort (fun a b => gdpOrder true a b = true)
  else if sort = "gdp_asc" then rows.insertionSort (fun a b => gdpOrder false a b = true)
  else if sort = "population_desc" then
    rows.insertionSort (fun a b => populationOrder true a b = true)
  else if sort = "population_asc" then
    rows.insertionSort (fun a b => populationOrder false a b = true)
  else if sort = "name_asc" then
    rows.insertionSort (fun a b => nameOrder coll false a b = true)
  else if sort = "name_desc" then
    rows.insertionSort (fun a b => nameOrder coll true a b = true)
  else rows.insertionSort (fun a b => nameOrder coll false a b = true)

/-- The method `GetAllCountries`. -/
def GetAllCountries (coll : Collation) (outcome : QueryOutcome)
    (region currency sort : String) (db : Database) : Except GoError (List Country) :=
  match outcome with
  | .queryError err => .error (.wrapped "failed to query countries: " err)
  | .scanError err => .error (.wrapped "failed to scan country: " err)
  | .rowsError err => .error (.wrapped "error iterating rows: " err)
  | .done =>
    .ok (orderBy coll sort (db.countries.filter (whereClause coll region currency)))

/-- The table after `DELETE FROM countries WHERE LOWER(name) = LOWER(?)`. -/
def deleteRows (coll : Collation) (name : String) (db : Database) : Database :=
  { db with
    countries := db.countries.filter
      (fun row => decide (coll.lowerKey row.Name ≠ coll.lowerKey name)) }

/-- The number of rows affected by the `DELETE` statement. -/
def rowsAffected (coll : Collation) (name : String) (db : Database) : Nat :=
  (db.countries.filter
    (fun row => decide (coll.lowerKey row.Name = coll.lowerKey name))).length

/-- The method `DeleteCountryByName`: the returned error and the database after the
call. -/
def DeleteCountryByName (coll : Collation) (outcome : DeleteOutcome) (name : String)
    (db : Database) : Option GoError × Database :=
  match outcome with
  | .execError err => (some (.wrapped "failed to delete country: " err), db)
  | .rowsAffectedError err =>
    (some (.wrapped "failed to get rows affected: " err), deleteRows coll name db)
  | .done =>
    if rowsAffected coll name db = 0 then (some .errNoRows, deleteRows coll name db)
    else (none, deleteRows coll name db)

end Repository

namespace CountryHandler

/-- The handler `DeleteCountryByName`, for the path parameter `name`: the response it
writes and the database after the call. -/
def DeleteCountryByName (coll : Collation) (outcome : DeleteOutcome) (name : String)
    (db : Database) : Response × Database :=
  if name = "" then
    ({ status := 400
       body := .errorResponse "Validation failed" (.fields [("name", "is required")]) }, db)
  else
    match Repository.DeleteCountryByName coll outcome name db with
    | (some err, db1) =>
      if err = GoError.errNoRows then
        ({ status := 404, body := .errorResponse "Country not found" .omitted }, db1)
      else
        ({ status := 500
           body := .errorResponse "Internal server error" (.text err.Error) }, db1)
    | (none, db1) => ({ status := 204, body := .empty }, db1)

end CountryHandler

/-! ## Vocabulary of the properties -/

/-- The record passed to the repository by an upsert call, for any other call nothing. -/
def Call.upserted : Call → Option Country
  | .upsertCountry country _ => some country
  | _ => none

/-- The call is a call of `GenerateSummaryImage`. -/
def Call.isRender : Call → Bool
  | .generateSummaryImage _ => true
  | _ => false

/-- The table row `row` stores the record `country`: the names are equal for the unique
index and every column but `id` and `name` has the value of the record. -/
def Country.StoredAs (coll : Collation) (country row : Country) : Prop :=
  coll.key row.Name = coll.key country.Name ∧
    row = { country with ID := row.ID, Name := row.Name }

/-- The table `countries` has a row that stores the record. -/
def Database.Holds (coll : Collation) (db : Database) (country : Country) : Prop :=
  ∃ row, row ∈ db.countries ∧ country.StoredAs coll row

/-! ## Example inputs -/

/-- The raw entry of the example scenario: Wakanda, population 1000, one currency `WKD`. -/
def wakanda : CountryAPIResponse :=
  { Name := "Wakanda", Capital := "", Region := "", Population := 1000, Flag := "",
    Currencies := [{ Code := "WKD", Name := "", Symbol := "" }] }

/-- The rate mapping of the example scenario: `WKD` at 2.0 and no other key. -/
def wakandaRates : String → Option Float64 :=
  fun code => if code = "WKD" then some (Float64.fin false 2) else none

/-- A raw entry whose only currency descriptor has an empty code. -/
def blankCode : CountryAPIResponse :=
  { Name := "Atlantis", Capital := "", Region := "", Population := 1000, Flag := "",
    Currencies := [{ Code := "", Name := "", Symbol := "" }] }

/-- A rate mapping that has the empty string among its keys, at rate 1.0. -/
def blankKeyRates : String → Option Float64 :=
  fun code => if code = "" then some (Float64.fin false 1) else none

/-- A raw entry with the given name, no capital, region or flag, population 1 and no
currency. -/
def plainEntry (name : String) : CountryAPIResponse :=
  { Name := name, Capital := "", Region := "", Population := 1, Flag := "", Currencies := [] }

/-- The comparison of strings used in the examples: the key folds the ASCII letters, and
so does `LOWER`. On names made of ASCII letters only, as are all names of the examples,
two names have the same key exactly when `utf8mb4_unicode_ci` takes them as equal. -/
def asciiCollation : Collation :=
  { key := fun s => ⟨s.data.map Char.toLower⟩
    lower := fun s => ⟨s.data.map Char.toLower⟩ }

/-- Five raw entries with names that differ by more than case. -/
def fiveCountries : List CountryAPIResponse :=
  [wakanda, plainEntry "Narnia", plainEntry "Oz", plainEntry "Utopia", plainEntry "Zembla"]

/-- A state with an empty table, the metadata row in place and no summary image. -/
def emptyWorld : World :=
  { db := { countries := [], autoIncrement := 1, lastRefreshedAt := some 0 },
    summaryImage := none, stdout := [], calls := [] }

/-- A cycle in which both fetches succeed with the five entries and the Wakanda rate,
the upsert of the third entry fails in `db.Exec`, and all else succeeds. -/
def oneUpsertFails : Env :=
  { collation := asciiCollation
    countriesExchange := .response 200 (.ok fiveCountries)
    ratesExchange := .response 200 (.ok { Result := "success", Rates := wakandaRates })
    now := 1700000000
    draw := fun _ => Float64.fin false (1 / 2)
    upsertExec := fun i => if i = 2 then .execError (.text "Error 1406: Data too long") else .done
    updateExec := none
    dbNow := 1700000001
    render := .done { lines := ["Total countries: 4"] } }

/-- A cycle like `oneUpsertFails` in which the metadata update fails as well. -/
def timestampFails : Env :=
  { oneUpsertFails with updateExec := some (.text "connection refused") }

/-- A cycle in which the transport of the countries request fails. -/
def countriesFetchFails : Env :=
  { oneUpsertFails with countriesExchange := .transportError (.text "dial tcp: i/o timeout") }

/-- A cycle in which the exchange rate API answers with status 500. -/
def ratesFetchFails : Env :=
  { oneUpsertFails with ratesExchange := .response 500 (.error (.text "unexpected end of JSON input")) }

/-- A stored row with the given id and name and no other value. -/
def plainRow (id : Int) (name : String) : Country :=
  { ID := id, Name := name, Capital := none, Region := none, Population := 1,
    CurrencyCode := none, ExchangeRate := none, EstimatedGDP := none, FlagURL := none,
    LastRefreshedAt := 0 }

/-- A database whose table holds the two rows Wakanda and Narnia. -/
def twoRows : Database :=
  { countries := [plainRow 1 "Wakanda", plainRow 2 "Narnia"], autoIncrement := 3,
    lastRefreshedAt := some 0 }

/-- A raw entry with the population -1. -/
def negativePopulation : CountryAPIResponse :=
  { Name := "Atlantis", Capital := "", Region := "", Population := -1, Flag := "",
    Currencies := [] }

/-- The greatest value that `(*rand.Rand).Float64` returns: `1 - 2 ^ (-53)`. -/
def topDraw : Float64 := Float64.fin false (1 - 1 / 2 ^ 53)

/-- The draw 0.5. -/
def halfDraw : Float64 := Float64.fin false (1 / 2)

/-! ## Properties -/

/-! ### Rounding -/

theorem roundHalfEven_le {x : ℚ} {k : ℤ} (h : x ≤ k) : roundHalfEven x ≤ k := by
  unfold roundHalfEven
  rcases eq_or_lt_of_le h with rfl | hlt
  · simp
  · have hf : ⌊x⌋ < k := Int.floor_lt.mpr hlt
    split_ifs <;> omega

theorem le_roundHalfEven {x : ℚ} {k : ℤ} (h : (k : ℚ) ≤ x) : k ≤ roundHalfEven x := by
  unfold roundHalfEven
  have hf : k ≤ ⌊x⌋ := Int.le_floor.mpr h
  split_ifs <;> omega

namespace Float64

theorem quantumExp_le {mag : ℚ} {t : ℤ} (h0 : 0 < mag) (ht : -1074 ≤ t)
    (h : mag < 2 ^ (t + 53)) : quantumExp mag ≤ t := by
  have hlog : Int.log 2 mag < t + 53 :=
    (Int.lt_zpow_iff_log_lt (by norm_num) h0).mp (by exact_mod_cast h)
  unfold quantumExp
  have := max_le (Int.le_of_lt_add_one (by omega : Int.log 2 mag < (t + 52) + 1))
    (by omega : (-1022 : ℤ) ≤ t + 52)
  omega

theorem roundMag_zero : roundMag 0 = 0 := by
  simp [roundMag, roundHalfEven]

/-- A multiple `c * 2 ^ t` of a power of two, as an integer multiple of a finer power. -/
theorem mul_zpow_eq (c : ℕ) {q t : ℤ} (h : q ≤ t) :
    (c : ℚ) * 2 ^ t = ((c * 2 ^ (t - q).toNat : ℤ) : ℚ) * 2 ^ q := by
  have ht : t = ((t - q).toNat : ℤ) + q := by omega
  have h2 : (2 : ℚ) ^ t = 2 ^ (t - q).toNat * 2 ^ q := by
    conv_lhs => rw [ht]
    rw [zpow_add₀ (by norm_num), zpow_natCast]
  rw [h2]
  push_cast
  ring

theorem roundMag_le {mag : ℚ} (c : ℕ) {t : ℤ} (ht : -1074 ≤ t) (hc : c < 2 ^ 53)
    (h0 : 0 ≤ mag) (h : mag ≤ c * 2 ^ t) : roundMag mag ≤ c * 2 ^ t := by
  rcases eq_or_lt_of_le h0 with rfl | hpos
  · rw [roundMag_zero]; positivity
  · have hlt : mag < 2 ^ (t + 53) := by
      have h53 : (c : ℚ) < 2 ^ (53 : ℕ) := by exact_mod_cast hc
      have hp : (0 : ℚ) < 2 ^ t := by positivity
      calc mag ≤ c * 2 ^ t := h
        _ < 2 ^ (53 : ℕ) * 2 ^ t := by gcongr
        _ = 2 ^ (t + 53) := by
          rw [zpow_add₀ (by norm_num), zpow_ofNat]; ring
    have hq := quantumExp_le hpos ht hlt
    have hp : (0 : ℚ) < 2 ^ quantumExp mag := by positivity
    rw [mul_zpow_eq c hq] at h ⊢
    have hdiv : mag / 2 ^ quantumExp mag ≤ ((c * 2 ^ (t - quantumExp mag).toNat : ℤ) : ℚ) := by
      rw [div_le_iff₀ hp]; exact h
    have := roundHalfEven_le hdiv
    unfold roundMag
    have hcast : (roundHalfEven (mag / 2 ^ quantumExp mag) : ℚ)
        ≤ ((c * 2 ^ (t - quantumExp mag).toNat : ℤ) : ℚ) := by exact_mod_cast this
    exact mul_le_mul_of_nonneg_right hcast hp.le

theorem le_roundMag {mag : ℚ} (c : ℕ) {t : ℤ} (ht : -1074 ≤ t) (hlt : mag < 2 ^ (t + 53))
    (h : (c : ℚ) * 2 ^ t ≤ mag) : (c : ℚ) * 2 ^ t ≤ roundMag mag := by
  have h0 : (0 : ℚ) ≤ c * 2 ^ t := by positivity
  rcases eq_or_lt_of_le (h0.trans h) with h00 | hpos
  · rw [← h00, roundMag_zero]; rw [← h00] at h; exact h
  · have hq := quantumExp_le hpos ht hlt
    have hp : (0 : ℚ) < 2 ^ quantumExp mag := by positivity
    rw [mul_zpow_eq c hq] at h ⊢
    have hdiv : ((c * 2 ^ (t - quantumExp mag).toNat : ℤ) : ℚ) ≤ mag / 2 ^ quantumExp mag := by
      rw [le_div_iff₀ hp]; exact h
    have := le_roundHalfEven hdiv
    unfold roundMag
    have hcast : ((c * 2 ^ (t - quantumExp mag).toNat : ℤ) : ℚ)
        ≤ (roundHalfEven (mag / 2 ^ quantumExp mag) : ℚ) := by exact_mod_cast this
    exact mul_le_mul_of_nonneg_right hcast hp.le

/-- Rounding keeps an exact result between two bounds that are binary64 numbers with a
common unit `2 ^ t`. -/
theorem ofExact_within (neg : Bool) (mag : ℚ) (cl ch : ℕ) (t : ℤ) (ht : -1074 ≤ t)
    (ht2 : t ≤ 971) (hc : ch < 2 ^ 53) (hl : (cl : ℚ) * 2 ^ t ≤ mag)
    (hh : mag ≤ ch * 2 ^ t) :
    ofExact neg mag = fin neg (roundMag mag) ∧ (cl : ℚ) * 2 ^ t ≤ roundMag mag ∧
      roundMag mag ≤ ch * 2 ^ t := by
  have h0 : (0 : ℚ) ≤ mag := le_trans (by positivity) hl
  have h53 : (ch : ℚ) < 2 ^ (53 : ℕ) := by exact_mod_cast hc
  have hp : (0 : ℚ) < 2 ^ t := by positivity
  have hlt : (ch : ℚ) * 2 ^ t < 2 ^ (t + 53) := by
    calc (ch : ℚ) * 2 ^ t < 2 ^ (53 : ℕ) * 2 ^ t := by gcongr
      _ = 2 ^ (t + 53) := by rw [zpow_add₀ (by norm_num), zpow_ofNat]; ring
  have hup := roundMag_le ch ht hc h0 hh
  have hlo := le_roundMag cl ht (lt_of_le_of_lt hh hlt) hl
  refine ⟨?_, hlo, hup⟩
  have hbig : (2 : ℚ) ^ (t + 53) ≤ 2 ^ (1024 : ℕ) := by
    rw [← zpow_natCast]
    exact zpow_le_zpow_right₀ (by norm_num) (by push_cast; omega)
  unfold ofExact
  rw [if_neg]
  exact not_le.mpr (lt_of_le_of_lt hup (lt_of_lt_of_le hlt hbig))

/-- A binary64 number `c * 2 ^ t` is left unchanged by rounding. -/
theorem ofExact_exact (neg : Bool) (c : ℕ) (t : ℤ) (ht : -1074 ≤ t) (ht2 : t ≤ 971)
    (hc : c < 2 ^ 53) : ofExact neg (c * 2 ^ t) = fin neg (c * 2 ^ t) := by
  obtain ⟨h1, h2, h3⟩ := ofExact_within neg _ c c t ht ht2 hc le_rfl le_rfl
  rw [h1, le_antisymm h3 h2]


theorem quantumExp_eq {mag : ℚ} (e : ℤ) (he : -1022 ≤ e) (h1 : 2 ^ e ≤ mag)
    (h2 : mag < 2 ^ (e + 1)) : quantumExp mag = e - 52 := by
  have h0 : 0 < mag := lt_of_lt_of_le (by positivity) h1
  have hlo : e ≤ Int.log 2 mag :=
    (Int.zpow_le_iff_le_log (by norm_num) h0).mp (by exact_mod_cast h1)
  have hhi : Int.log 2 mag < e + 1 :=
    (Int.lt_zpow_iff_log_lt (by norm_num) h0).mp (by exact_mod_cast h2)
  unfold quantumExp
  rw [max_eq_left (by omega)]
  omega

end Float64

namespace Float64

theorem mul_fin_pos (x y : ℚ) : mul (fin false x) (fin false y) = ofExact false (x * y) := rfl

theorem add_fin_pos {x y : ℚ} (hx : 0 < x) (hy : 0 ≤ y) :
    add (fin false x) (fin false y) = ofExact false (x + y) := by
  have hs : x + y ≠ 0 := by linarith
  have hn : ¬ (x + y < 0) := by linarith
  have ha : |x + y| = x + y := abs_of_nonneg (by linarith)
  simp only [add, signed, Bool.false_eq_true, if_false, if_neg hs, decide_eq_false hn, ha]

theorem div_fin_pos {x y : ℚ} (hy : y ≠ 0) :
    div (fin false x) (fin false y) = ofExact false (x / y) := by
  simp only [div, if_neg hy, Bool.xor_false]

end Float64

namespace CountryService

theorem multiplier_top :
    multiplier (Float64.fin false (1 - 1 / 2 ^ 53)) = Float64.fin false 2000 := by
  have q1 : Float64.quantumExp ((1 - 1 / 2 ^ 53) * 1000) = -43 := by
    rw [Float64.quantumExp_eq 9 (by norm_num) (by norm_num) (by norm_num)]; norm_num
  have r1 : Float64.roundMag ((1 - 1 / 2 ^ 53) * 1000) = 1000 - 1 / 2 ^ 43 := by
    rw [Float64.roundMag, q1]
    norm_num [roundHalfEven]
  have q2 : Float64.quantumExp (1000 + (1000 - 1 / 2 ^ 43)) = -42 := by
    rw [Float64.quantumExp_eq 10 (by norm_num) (by norm_num) (by norm_num)]; norm_num
  have r2 : Float64.roundMag (1000 + (1000 - 1 / 2 ^ 43)) = 2000 := by
    rw [Float64.roundMag, q2]
    norm_num [roundHalfEven]
  have e1 := (Float64.ofExact_within false ((1 - 1 / 2 ^ 53) * 1000) 0 125 3
    (by norm_num) (by norm_num) (by norm_num) (by norm_num) (by norm_num)).1
  have e2 := (Float64.ofExact_within false (1000 + (1000 - 1 / 2 ^ 43)) 125 250 3
    (by norm_num) (by norm_num) (by norm_num) (by norm_num) (by norm_num)).1
  rw [multiplier, Float64.mul_fin_pos, e1, r1, Float64.add_fin_pos (by norm_num) (by norm_num),
    e2, r2]

theorem multiplier_within {draw : Float64} (h : draw.IsUnitDraw) :
    (multiplier draw).Within 1000 2000 := by
  match draw, h with
  | .fin neg q, ⟨hneg, h0, h1⟩ =>
    subst hneg
    obtain ⟨e1, l1, u1⟩ := Float64.ofExact_within false (q * 1000) 0 125 3
      (by norm_num) (by norm_num) (by norm_num) (by norm_num; positivity)
      (by norm_num; linarith)
    norm_num at l1 u1
    obtain ⟨e2, l2, u2⟩ := Float64.ofExact_within false
      (1000 + Float64.roundMag (q * 1000)) 125 250 3
      (by norm_num) (by norm_num) (by norm_num) (by norm_num; linarith)
      (by norm_num; linarith)
    norm_num at l2 u2
    rw [multiplier, Float64.mul_fin_pos, e1, Float64.add_fin_pos (by norm_num) l1, e2]
    exact ⟨rfl, l2, u2⟩


theorem ofInt_thousand : Float64.ofInt 1000 = Float64.fin false 1000 := by
  have h := Float64.ofExact_exact false 125 3 (by norm_num) (by norm_num) (by norm_num)
  norm_num at h
  have hd : decide ((1000 : Int) < 0) = false := by decide
  have ha : |((1000 : Int) : ℚ)| = 1000 := by norm_num
  rw [Float64.ofInt, hd, ha, h]

/-- The estimate for population 1000 at rate 2.0 lies between 500000 and 1000000. -/
theorem calculateEstimatedGDP_wakanda {draw : Float64} (h : draw.IsUnitDraw) :
    (calculateEstimatedGDP draw 1000 (Float64.fin false 2)).Within 500000 1000000 := by
  have hm := multiplier_within h
  rw [calculateEstimatedGDP, ofInt_thousand]
  match multiplier draw, hm with
  | .fin neg m, ⟨hneg, l0, u0⟩ =>
    subst hneg
    obtain ⟨e1, l1, u1⟩ := Float64.ofExact_within false (1000 * m) 15625 31250 6
      (by norm_num) (by norm_num) (by norm_num) (by norm_num; linarith)
      (by norm_num; linarith)
    norm_num at l1 u1
    obtain ⟨e2, l2, u2⟩ := Float64.ofExact_within false
      (Float64.roundMag (1000 * m) / 2) 15625 31250 5
      (by norm_num) (by norm_num) (by norm_num) (by norm_num; linarith)
      (by norm_num; linarith)
    norm_num at l2 u2
    rw [Float64.mul_fin_pos, e1, Float64.div_fin_pos (by norm_num), e2]
    exact ⟨rfl, l2, u2⟩

/-- At the greatest draw the estimate for population 1000 at rate 2.0 is 1000000. -/
theorem calculateEstimatedGDP_top :
    calculateEstimatedGDP topDraw 1000 (Float64.fin false 2) = Float64.fin false 1000000 := by
  have h1 := Float64.ofExact_exact false 15625 7 (by norm_num) (by norm_num) (by norm_num)
  have h2 := Float64.ofExact_exact false 15625 6 (by norm_num) (by norm_num) (by norm_num)
  norm_num at h1 h2
  have hq : (1000 : ℚ) * 2000 = 2000000 := by norm_num
  have hd : (2000000 : ℚ) / 2 = 1000000 := by norm_num
  rw [calculateEstimatedGDP, ofInt_thousand, topDraw, multiplier_top, Float64.mul_fin_pos, hq,
    h1, Float64.div_fin_pos (by norm_num), hd, h2]

/-! ### The fields of the record made by `transformCountry` -/

/-- The record made by `transformCountry`, field by field. -/
theorem transformCountry_eq (draw : Float64) (apiCountry : CountryAPIResponse)
    (exchangeRates : String → Option Float64) (refreshTime : Time) :
    transformCountry draw apiCountry exchangeRates refreshTime =
      { ID := 0
        Name := apiCountry.Name
        Capital := if apiCountry.Capital = "" then none else some apiCountry.Capital
        Region := if apiCountry.Region = "" then none else some apiCountry.Region
        Population := apiCountry.Population
        CurrencyCode :=
          match apiCountry.Currencies with
          | [] => none
          | first :: _ => if first.Code = "" then none else some first.Code
        ExchangeRate :=
          match apiCountry.Currencies with
          | [] => none
          | first :: _ => if first.Code = "" then none else exchangeRates first.Code
        EstimatedGDP :=
          match apiCountry.Currencies with
          | [] => none
          | first :: _ =>
            if first.Code = "" then none
            else (exchangeRates first.Code).map
              (calculateEstimatedGDP draw apiCountry.Population)
        FlagURL := if apiCountry.Flag = "" then none else some apiCountry.Flag
        LastRefreshedAt := refreshTime } := by
  unfold transformCountry
  by_cases h1 : apiCountry.Capital = "" <;> by_cases h2 : apiCountry.Region = "" <;>
    by_cases h3 : apiCountry.Flag = "" <;>
    simp only [ne_eq, h1, h2, h3, not_true_eq_false, not_false_eq_true, if_true, if_false] <;>
    rcases apiCountry.Currencies with _ | ⟨first, rest⟩ <;> dsimp only <;>
    by_cases h4 : first.Code = "" <;>
    simp only [ne_eq, h4, not_true_eq_false, not_false_eq_true, if_true, if_false] <;>
    cases exchangeRates first.Code <;> rfl


theorem transformCountry_nil (draw : Float64) (apiCountry : CountryAPIResponse)
    (exchangeRates : String → Option Float64) (refreshTime : Time)
    (h : apiCountry.Currencies = []) :
    (transformCountry draw apiCountry exchangeRates refreshTime).CurrencyCode = none ∧
    (transformCountry draw apiCountry exchangeRates refreshTime).ExchangeRate = none ∧
    (transformCountry draw apiCountry exchangeRates refreshTime).EstimatedGDP = none := by
  rw [transformCountry_eq, h]
  exact ⟨rfl, rfl, rfl⟩

theorem transformCountry_cons (draw : Float64) (apiCountry : CountryAPIResponse)
    (exchangeRates : String → Option Float64) (refreshTime : Time)
    (first : CurrencyDescriptor) (rest : List CurrencyDescriptor)
    (h : apiCountry.Currencies = first :: rest) :
    (transformCountry draw apiCountry exchangeRates refreshTime).CurrencyCode =
      (if first.Code = "" then none else some first.Code) ∧
    (transformCountry draw apiCountry exchangeRates refreshTime).ExchangeRate =
      (if first.Code = "" then none else exchangeRates first.Code) ∧
    (transformCountry draw apiCountry exchangeRates refreshTime).EstimatedGDP =
      (if first.Code = "" then none
        else (exchangeRates first.Code).map
          (calculateEstimatedGDP draw apiCountry.Population)) := by
  rw [transformCountry_eq, h]
  exact ⟨rfl, rfl, rfl⟩

theorem transformCountry_Name (draw : Float64) (apiCountry : CountryAPIResponse)
    (exchangeRates : String → Option Float64) (refreshTime : Time) :
    (transformCountry draw apiCountry exchangeRates refreshTime).Name = apiCountry.Name := by
  rw [transformCountry_eq]

theorem transformCountry_LastRefreshedAt (draw : Float64) (apiCountry : CountryAPIResponse)
    (exchangeRates : String → Option Float64) (refreshTime : Time) :
    (transformCountry draw apiCountry exchangeRates refreshTime).LastRefreshedAt =
      refreshTime := by
  rw [transformCountry_eq]

/-! ### The reconciliation step -/

/-- C1. In the record made by `transformCountry`, `estimated_gdp` is present exactly when
`exchange_rate` is present, and `exchange_rate` is present exactly when `currency_code` is
present with a code that is a key of the rate mapping; for a raw entry with an empty
currency list all three are absent. -/
theorem transformCountry_presence (draw : Float64) (apiCountry : CountryAPIResponse)
    (exchangeRates : String → Option Float64) (refreshTime : Time) :
    ((transformCountry draw apiCountry exchangeRates refreshTime).EstimatedGDP.isSome = true ↔
      (transformCountry draw apiCountry exchangeRates refreshTime).ExchangeRate.isSome = true) ∧
    ((transformCountry draw apiCountry exchangeRates refreshTime).ExchangeRate.isSome = true ↔
      ∃ code, (transformCountry draw apiCountry exchangeRates refreshTime).CurrencyCode =
          some code ∧ (exchangeRates code).isSome = true) ∧
    (transformCountry draw { apiCountry with Currencies := [] } exchangeRates
      refreshTime).CurrencyCode = none ∧
    (transformCountry draw { apiCountry with Currencies := [] } exchangeRates
      refreshTime).ExchangeRate = none ∧
    (transformCountry draw { apiCountry with Currencies := [] } exchangeRates
      refreshTime).EstimatedGDP = none := by
  refine ⟨?_, ?_, transformCountry_nil draw _ exchangeRates refreshTime rfl⟩
  · rcases hc : apiCountry.Currencies with _ | ⟨first, rest⟩
    · obtain ⟨_, h2, h3⟩ := transformCountry_nil draw apiCountry exchangeRates refreshTime hc
      rw [h2, h3]
    · obtain ⟨_, h2, h3⟩ :=
        transformCountry_cons draw apiCountry exchangeRates refreshTime first rest hc
      rw [h2, h3]
      split_ifs
      · rfl
      · cases exchangeRates first.Code <;> simp
  · rcases hc : apiCountry.Currencies with _ | ⟨first, rest⟩
    · obtain ⟨h1, h2, _⟩ := transformCountry_nil draw apiCountry exchangeRates refreshTime hc
      rw [h1, h2]
      simp
    · obtain ⟨h1, h2, _⟩ :=
        transformCountry_cons draw apiCountry exchangeRates refreshTime first rest hc
      rw [h1, h2]
      split_ifs
      · simp
      · simp

/-- C2, as amended. For a draw in `[0, 1)`: when the first currency code of a raw entry is
not empty and is a key of the rate mapping, the record has the mapped rate as
`exchange_rate` and an `estimated_gdp` equal to `float64(population) * m / rate` for a
multiplier `m` with `1000 <= m <= 2000`; when the entry has no first currency code, or
that code is empty or not a key, `estimated_gdp` is absent. The Wakanda entry with `WKD`
at 2.0 gets code `WKD`, rate 2.0 and an estimate in `[500000, 1000000]`. -/
theorem transformCountry_estimatedGDP (draw : Float64) (hdraw : draw.IsUnitDraw)
    (apiCountry : CountryAPIResponse) (exchangeRates : String → Option Float64)
    (refreshTime : Time) :
    (∀ first rest rate, apiCountry.Currencies = first :: rest → first.Code ≠ "" →
      exchangeRates first.Code = some rate →
      (transformCountry draw apiCountry exchangeRates refreshTime).ExchangeRate = some rate ∧
      ∃ m : Float64, m.Within 1000 2000 ∧
        (transformCountry draw apiCountry exchangeRates refreshTime).EstimatedGDP =
          some (Float64.div (Float64.mul (Float64.ofInt apiCountry.Population) m) rate)) ∧
    ((∀ first rest, apiCountry.Currencies = first :: rest →
        first.Code = "" ∨ exchangeRates first.Code = none) →
      (transformCountry draw apiCountry exchangeRates refreshTime).EstimatedGDP = none) ∧
    ((transformCountry draw wakanda wakandaRates refreshTime).CurrencyCode = some "WKD" ∧
      (transformCountry draw wakanda wakandaRates refreshTime).ExchangeRate =
        some (Float64.fin false 2) ∧
      ∃ gdp : Float64, gdp.Within 500000 1000000 ∧
        (transformCountry draw wakanda wakandaRates refreshTime).EstimatedGDP = some gdp) := by
  refine ⟨?_, ?_, ?_⟩
  · intro first rest rate hc hcode hrate
    obtain ⟨_, h2, h3⟩ :=
      transformCountry_cons draw apiCountry exchangeRates refreshTime first rest hc
    rw [h2, h3, if_neg hcode, if_neg hcode, hrate]
    exact ⟨rfl, multiplier draw, multiplier_within hdraw, rfl⟩
  · intro h
    rcases hc : apiCountry.Currencies with _ | ⟨first, rest⟩
    · exact (transformCountry_nil draw apiCountry exchangeRates refreshTime hc).2.2
    · obtain ⟨_, _, h3⟩ :=
        transformCountry_cons draw apiCountry exchangeRates refreshTime first rest hc
      rw [h3]
      rcases h first rest hc with h0 | h0
      · rw [if_pos h0]
      · rw [h0]; simp
  · obtain ⟨h1, h2, h3⟩ := transformCountry_cons draw wakanda wakandaRates refreshTime
      { Code := "WKD", Name := "", Symbol := "" } [] rfl
    have hne : ("WKD" : String) ≠ "" := by decide
    have hr : wakandaRates "WKD" = some (Float64.fin false 2) := by
      simp [wakandaRates]
    rw [h1, h2, h3]
    simp only [if_neg hne, hr, Option.map_some']
    exact ⟨trivial, trivial, _, calculateEstimatedGDP_wakanda hdraw, rfl⟩

/-- C2, witness of the amended claim: at the draw 0.5 the Wakanda entry gets an estimate
`float64(1000) * m / 2.0` with `1000 <= m <= 2000`. -/
theorem transformCountry_estimatedGDP_witness :
    halfDraw.IsUnitDraw ∧
    (transformCountry halfDraw wakanda wakandaRates 0).ExchangeRate =
      some (Float64.fin false 2) ∧
    ∃ m : Float64, m.Within 1000 2000 ∧
      (transformCountry halfDraw wakanda wakandaRates 0).EstimatedGDP =
        some (Float64.div (Float64.mul (Float64.ofInt 1000) m) (Float64.fin false 2)) :=
  have hdraw : halfDraw.IsUnitDraw := ⟨rfl, by norm_num, by norm_num⟩
  ⟨hdraw,
    (transformCountry_estimatedGDP halfDraw hdraw wakanda wakandaRates 0).1
      { Code := "WKD", Name := "", Symbol := "" } [] (Float64.fin false 2) rfl (by decide)
      (by simp [wakandaRates])⟩

/-- C2, counterexamples to the claim as stated. An entry whose first currency code is the
empty string gets no `estimated_gdp` although the empty string is a key of the rate
mapping. And `1 - 2 ^ (-53)` is a draw in `[0, 1)` at which the multiplier is not below
2000 and the estimate of the Wakanda entry at rate 2.0 is not in `[500000, 1000000)`:
they are 2000 and 1000000. -/
theorem transformCountry_estimatedGDP_counterexample :
    (∃ first rest, blankCode.Currencies = first :: rest ∧
      (blankKeyRates first.Code).isSome = true ∧
      (transformCountry halfDraw blankCode blankKeyRates 0).EstimatedGDP = none) ∧
    (topDraw.IsUnitDraw ∧
      (¬ ∃ q : ℚ, multiplier topDraw = Float64.fin false q ∧ q < 2000) ∧
      (transformCountry topDraw wakanda wakandaRates 0).ExchangeRate =
        some (Float64.fin false 2) ∧
      ¬ ∃ g : ℚ, (transformCountry topDraw wakanda wakandaRates 0).EstimatedGDP =
          some (Float64.fin false g) ∧ 500000 ≤ g ∧ g < 1000000) := by
  have hne : ("WKD" : String) ≠ "" := by decide
  have hr : wakandaRates "WKD" = some (Float64.fin false 2) := by
    simp [wakandaRates]
  obtain ⟨_, h2, h3⟩ := transformCountry_cons topDraw wakanda wakandaRates 0
    { Code := "WKD", Name := "", Symbol := "" } [] rfl
  rw [if_neg hne, hr] at h2 h3
  refine ⟨⟨{ Code := "", Name := "", Symbol := "" }, [], rfl, ?_, ?_⟩,
    ⟨rfl, by norm_num, by norm_num⟩, ?_, h2, ?_⟩
  · simp [blankKeyRates]
  · exact (transformCountry_cons halfDraw blankCode blankKeyRates 0
      { Code := "", Name := "", Symbol := "" } [] rfl).2.2
  · rintro ⟨q, hq, hlt⟩
    rw [topDraw, multiplier_top] at hq
    injection hq with _ hq
    rw [← hq] at hlt
    exact lt_irrefl _ hlt
  · rintro ⟨g, hg, _, hlt⟩
    rw [h3, Option.map_some', show wakanda.Population = 1000 from rfl,
      calculateEstimatedGDP_top] at hg
    injection hg with hg
    injection hg with _ hg
    rw [← hg] at hlt
    exact lt_irrefl _ hlt

/-- C8. `transformCountry` resolves the currency from the first descriptor only: two raw
entries that agree on every field and on the first currency descriptor get the same
`currency_code` and `exchange_rate` and agree on the presence of `estimated_gdp`,
whatever the later descriptors and the draws; and when the code of the first descriptor
is empty, `currency_code`, `exchange_rate` and `estimated_gdp` are absent whatever the
later descriptors and the rate mapping. -/
theorem transformCountry_first_descriptor (draw1 draw2 : Float64)
    (apiCountry : CountryAPIResponse) (first : CurrencyDescriptor)
    (rest1 rest2 : List CurrencyDescriptor) (exchangeRates : String → Option Float64)
    (refreshTime : Time) :
    ((transformCountry draw1 { apiCountry with Currencies := first :: rest1 } exchangeRates
        refreshTime).CurrencyCode =
      (transformCountry draw2 { apiCountry with Currencies := first :: rest2 } exchangeRates
        refreshTime).CurrencyCode ∧
    (transformCountry draw1 { apiCountry with Currencies := first :: rest1 } exchangeRates
        refreshTime).ExchangeRate =
      (transformCountry draw2 { apiCountry with Currencies := first :: rest2 } exchangeRates
        refreshTime).ExchangeRate ∧
    (transformCountry draw1 { apiCountry with Currencies := first :: rest1 } exchangeRates
        refreshTime).EstimatedGDP.isSome =
      (transformCountry draw2 { apiCountry with Currencies := first :: rest2 } exchangeRates
        refreshTime).EstimatedGDP.isSome) ∧
    ((transformCountry draw1
        { apiCountry with Currencies := { first with Code := "" } :: rest1 } exchangeRates
        refreshTime).CurrencyCode = none ∧
    (transformCountry draw1
        { apiCountry with Currencies := { first with Code := "" } :: rest1 } exchangeRates
        refreshTime).ExchangeRate = none ∧
    (transformCountry draw1
        { apiCountry with Currencies := { first with Code := "" } :: rest1 } exchangeRates
        refreshTime).EstimatedGDP = none) := by
  obtain ⟨a1, a2, a3⟩ := transformCountry_cons draw1
    { apiCountry with Currencies := first :: rest1 } exchangeRates refreshTime first rest1 rfl
  obtain ⟨b1, b2, b3⟩ := transformCountry_cons draw2
    { apiCountry with Currencies := first :: rest2 } exchangeRates refreshTime first rest2 rfl
  refine ⟨⟨a1.trans b1.symm, a2.trans b2.symm, ?_⟩, ?_⟩
  · rw [a3, b3]
    split_ifs
    · rfl
    · cases exchangeRates first.Code <;> rfl
  · exact transformCountry_cons draw1
      { apiCountry with Currencies := { first with Code := "" } :: rest1 } exchangeRates
      refreshTime { first with Code := "" } rest1 rfl

/-- C9. In the record made by `transformCountry`, each of `capital`, `region` and
`flag_url` is present exactly when the raw value is a non-empty string, it is then the raw
value, and it is never a present empty string. -/
theorem transformCountry_optional_strings (draw : Float64) (apiCountry : CountryAPIResponse)
    (exchangeRates : String → Option Float64) (refreshTime : Time) :
    (((transformCountry draw apiCountry exchangeRates refreshTime).Capital.isSome = true ↔
        apiCountry.Capital ≠ "") ∧
      ((transformCountry draw apiCountry exchangeRates refreshTime).Capital = none ∨
        (transformCountry draw apiCountry exchangeRates refreshTime).Capital =
          some apiCountry.Capital) ∧
      (transformCountry draw apiCountry exchangeRates refreshTime).Capital ≠ some "") ∧
    (((transformCountry draw apiCountry exchangeRates refreshTime).Region.isSome = true ↔
        apiCountry.Region ≠ "") ∧
      ((transformCountry draw apiCountry exchangeRates refreshTime).Region = none ∨
        (transformCountry draw apiCountry exchangeRates refreshTime).Region =
          some apiCountry.Region) ∧
      (transformCountry draw apiCountry exchangeRates refreshTime).Region ≠ some "") ∧
    (((transformCountry draw apiCountry exchangeRates refreshTime).FlagURL.isSome = true ↔
        apiCountry.Flag ≠ "") ∧
      ((transformCountry draw apiCountry exchangeRates refreshTime).FlagURL = none ∨
        (transformCountry draw apiCountry exchangeRates refreshTime).FlagURL =
          some apiCountry.Flag) ∧
      (transformCountry draw apiCountry exchangeRates refreshTime).FlagURL ≠ some "") := by
  have key : ∀ raw : String,
      ((if raw = "" then none else some raw : Option String).isSome = true ↔ raw ≠ "") ∧
      ((if raw = "" then none else some raw : Option String) = none ∨
        (if raw = "" then none else some raw : Option String) = some raw) ∧
      (if raw = "" then none else some raw : Option String) ≠ some "" := by
    intro raw
    by_cases h : raw = ""
    · simp [h]
    · simp [h]
  rw [transformCountry_eq]
  exact ⟨key _, key _, key _⟩

end CountryService

/-! ### The table `countries` under an upsert -/

namespace Database

theorem upsertRow_mem_of_ne (coll : Collation) (db : Database) (country row : Country)
    (hrow : row ∈ db.countries) (hne : coll.key row.Name ≠ coll.key country.Name) :
    row ∈ (db.upsertRow coll country).countries := by
  unfold upsertRow
  split_ifs
  · refine List.mem_map.mpr ⟨row, hrow, ?_⟩
    rw [updateRow, if_neg hne]
  · exact List.mem_append_left _ hrow

theorem upsertRow_holds (coll : Collation) (db : Database) (country : Country) :
    (db.upsertRow coll country).Holds coll country := by
  unfold upsertRow
  split_ifs with h
  · obtain ⟨row, hrow, hkey⟩ := List.any_eq_true.mp h
    have hkey2 : coll.key row.Name = coll.key country.Name := of_decide_eq_true hkey
    refine ⟨updateRow coll country row, List.mem_map.mpr ⟨row, hrow, rfl⟩, ?_⟩
    rw [updateRow, if_pos hkey2]
    exact ⟨hkey2, rfl⟩
  · exact ⟨{ country with ID := db.autoIncrement }, List.mem_append_right _ (by simp),
      rfl, rfl⟩

end Database

namespace Repository

theorem UpsertCountry_mem_of_ne (coll : Collation) (outcome : ExecOutcome)
    (country row : Country) (db : Database) (hrow : row ∈ db.countries)
    (hne : coll.key row.Name ≠ coll.key country.Name) :
    row ∈ (UpsertCountry coll outcome country db).2.2.countries := by
  cases outcome with
  | execError err => exact hrow
  | lastInsertIdError err =>
    exact Database.upsertRow_mem_of_ne coll db country row hrow hne
  | done => exact Database.upsertRow_mem_of_ne coll db country row hrow hne

theorem UpsertCountry_done (coll : Collation) (country : Country) (db : Database) :
    (UpsertCountry coll .done country db).1 = none ∧
      (UpsertCountry coll .done country db).2.2 = db.upsertRow coll country :=
  ⟨rfl, rfl⟩

end Repository

/-! ### The loop of the refresh cycle -/

namespace CountryService

/-- One iteration of the loop: the record made from the entry is passed to
`UpsertCountry`, the call is recorded, and the database is the one the call left,
whatever the call returned. -/
theorem persistOne_spec (env : Env) (exchangeRates : String → Option Float64) (i : Nat)
    (apiCountry : CountryAPIResponse) (w : World) :
    (persistOne env exchangeRates i apiCountry w).db =
        (Repository.UpsertCountry env.collation (env.upsertExec i)
          (transformCountry (env.draw i) apiCountry exchangeRates env.now) w.db).2.2 ∧
      (persistOne env exchangeRates i apiCountry w).summaryImage = w.summaryImage ∧
      (persistOne env exchangeRates i apiCountry w).calls = w.calls ++ [Call.upsertCountry
        (transformCountry (env.draw i) apiCountry exchangeRates env.now)
        (Repository.UpsertCountry env.collation (env.upsertExec i)
          (transformCountry (env.draw i) apiCountry exchangeRates env.now) w.db).1] := by
  rw [persistOne]
  cases env.upsertExec i with
  | execError err => exact ⟨rfl, rfl, rfl⟩
  | lastInsertIdError err => exact ⟨rfl, rfl, rfl⟩
  | done => exact ⟨rfl, rfl, rfl⟩

theorem persistLoop_cons (env : Env) (exchangeRates : String → Option Float64) (i : Nat)
    (apiCountry : CountryAPIResponse) (rest : List CountryAPIResponse) (w : World) :
    persistLoop env exchangeRates i (apiCountry :: rest) w =
      persistLoop env exchangeRates (i + 1) rest
        (persistOne env exchangeRates i apiCountry w) := rfl

theorem persistLoop_summaryImage (env : Env) (exchangeRates : String → Option Float64)
    (entries : List CountryAPIResponse) :
    ∀ (i : Nat) (w : World),
      (persistLoop env exchangeRates i entries w).summaryImage = w.summaryImage := by
  induction entries with
  | nil => intro i w; rfl
  | cons apiCountry rest ih =>
    intro i w
    rw [persistLoop_cons, ih, (persistOne_spec env exchangeRates i apiCountry w).2.1]

theorem persistLoop_lastRefreshedAt (env : Env) (exchangeRates : String → Option Float64)
    (entries : List CountryAPIResponse) :
    ∀ (i : Nat) (w : World),
      (persistLoop env exchangeRates i entries w).db.lastRefreshedAt =
        w.db.lastRefreshedAt := by
  induction entries with
  | nil => intro i w; rfl
  | cons apiCountry rest ih =>
    intro i w
    rw [persistLoop_cons, ih, (persistOne_spec env exchangeRates i apiCountry w).1]
    cases env.upsertExec i with
    | execError err => rfl
    | lastInsertIdError err =>
      simp only [Repository.UpsertCountry, Database.upsertRow]; split_ifs <;> rfl
    | done =>
      simp only [Repository.UpsertCountry, Database.upsertRow]; split_ifs <;> rfl

/-- The calls recorded by the loop: one upsert call for each entry, in the order of the
entries, each with the record made from its entry. -/
theorem persistLoop_calls (env : Env) (exchangeRates : String → Option Float64)
    (entries : List CountryAPIResponse) :
    ∀ (i : Nat) (w : World), ∃ made : List Call,
      (persistLoop env exchangeRates i entries w).calls = w.calls ++ made ∧
      made.map Call.upserted = (entries.enumFrom i).map (fun p =>
        some (transformCountry (env.draw p.1) p.2 exchangeRates env.now)) := by
  induction entries with
  | nil => intro i w; exact ⟨[], by simp [persistLoop], rfl⟩
  | cons apiCountry rest ih =>
    intro i w
    have h := persistLoop_cons env exchangeRates i apiCountry rest w
    have hcalls := (persistOne_spec env exchangeRates i apiCountry w).2.2
    obtain ⟨made, h1, h2⟩ := ih (i + 1) (persistOne env exchangeRates i apiCountry w)
    refine ⟨Call.upsertCountry
      (transformCountry (env.draw i) apiCountry exchangeRates env.now)
      (Repository.UpsertCountry env.collation (env.upsertExec i)
        (transformCountry (env.draw i) apiCountry exchangeRates env.now) w.db).1 :: made,
      ?_, ?_⟩
    · rw [h, h1, hcalls, List.append_assoc]; rfl
    · rw [List.map_cons, h2]; rfl

theorem persistLoop_mem_of_ne (env : Env) (exchangeRates : String → Option Float64)
    (row : Country) (entries : List CountryAPIResponse) :
    ∀ (i : Nat) (w : World), row ∈ w.db.countries →
      (∀ later, later ∈ entries → env.collation.key later.Name ≠ env.collation.key row.Name) →
      row ∈ (persistLoop env exchangeRates i entries w).db.countries := by
  induction entries with
  | nil => intro i w hrow _; exact hrow
  | cons apiCountry rest ih =>
    intro i w hrow hne
    have hdb := (persistOne_spec env exchangeRates i apiCountry w).1
    rw [persistLoop_cons]
    refine ih (i + 1) _ ?_ (fun later hl => hne later (List.mem_cons_of_mem _ hl))
    rw [hdb]
    refine Repository.UpsertCountry_mem_of_ne _ _ _ row w.db hrow ?_
    rw [transformCountry_Name]
    exact fun hk => hne apiCountry (List.mem_cons_self _ _) hk.symm

/-- A record whose upsert succeeds is held by the table after the loop, when no later
entry has a name that the unique index takes as equal. -/
theorem persistLoop_holds (env : Env) (exchangeRates : String → Option Float64)
    (entries : List CountryAPIResponse) :
    ∀ (i : Nat) (w : World) (k : Nat) (apiCountry : CountryAPIResponse),
      entries[k]? = some apiCountry → env.upsertExec (i + k) = ExecOutcome.done →
      (∀ j later, k < j → entries[j]? = some later →
        env.collation.key later.Name ≠ env.collation.key apiCountry.Name) →
      (persistLoop env exchangeRates i entries w).db.Holds env.collation
        (transformCountry (env.draw (i + k)) apiCountry exchangeRates env.now) := by
  induction entries with
  | nil => intro i w k apiCountry hk; simp at hk
  | cons head rest ih =>
    intro i w k apiCountry hk hdone hlater
    have hdb := (persistOne_spec env exchangeRates i head w).1
    rw [persistLoop_cons]
    cases k with
    | zero =>
      simp only [List.getElem?_cons_zero, Option.some.injEq] at hk
      subst hk
      rw [Nat.add_zero] at hdone ⊢
      rw [hdone, (Repository.UpsertCountry_done _ _ _).2] at hdb
      obtain ⟨row, hrow, hkey, hcols⟩ := Database.upsertRow_holds env.collation w.db
        (transformCountry (env.draw i) head exchangeRates env.now)
      rw [← hdb] at hrow
      refine ⟨row, persistLoop_mem_of_ne env exchangeRates row rest (i + 1) _ hrow ?_,
        hkey, hcols⟩
      intro later hl
      obtain ⟨j, hj, hget⟩ := List.getElem_of_mem hl
      rw [hkey, transformCountry_Name]
      refine hlater (j + 1) later (Nat.succ_pos j) ?_
      rw [List.getElem?_cons_succ, List.getElem?_eq_getElem hj, hget]
    | succ k =>
      rw [List.getElem?_cons_succ] at hk
      have hidx : i + (k + 1) = (i + 1) + k := by omega
      rw [hidx] at hdone ⊢
      refine ih (i + 1) _ k apiCountry hk hdone ?_
      intro j later hj hget
      refine hlater (j + 1) later (Nat.succ_lt_succ hj) ?_
      rw [List.getElem?_cons_succ]
      exact hget


/-! ### The refresh cycle -/

theorem RefreshCountries_of_countries_error (env : Env) (w : World) (err : GoError)
    (hc : APIClient.FetchCountries env.countriesExchange = .error err) :
    RefreshCountries env w =
      (some (.wrapped "could not fetch data from countries API: " err), w) := by
  unfold RefreshCountries
  rw [hc]

theorem RefreshCountries_of_rates_error (env : Env) (w : World)
    (countriesData : List CountryAPIResponse) (err : GoError)
    (hc : APIClient.FetchCountries env.countriesExchange = .ok countriesData)
    (hr : APIClient.FetchExchangeRates env.ratesExchange = .error err) :
    RefreshCountries env w =
      (some (.wrapped "could not fetch data from exchange rate API: " err), w) := by
  unfold RefreshCountries
  rw [hc]
  dsimp only
  rw [hr]

theorem RefreshCountries_of_update_error (env : Env) (w : World)
    (countriesData : List CountryAPIResponse) (exchangeRates : String → Option Float64)
    (err : GoError)
    (hc : APIClient.FetchCountries env.countriesExchange = .ok countriesData)
    (hr : APIClient.FetchExchangeRates env.ratesExchange = .ok exchangeRates)
    (hu : env.updateExec = some err) :
    RefreshCountries env w =
      (some (.wrapped "failed to update refresh timestamp: "
          (.wrapped "failed to update last refresh time: " err)),
        { persistLoop env exchangeRates 0 countriesData w with
          calls := (persistLoop env exchangeRates 0 countriesData w).calls ++
            [Call.updateLastRefreshedAt
              (some (.wrapped "failed to update last refresh time: " err))] }) := by
  unfold RefreshCountries
  rw [hc]
  dsimp only
  rw [hr]
  dsimp only
  rw [hu]
  rfl

theorem RefreshCountries_of_update_ok (env : Env) (w : World)
    (countriesData : List CountryAPIResponse) (exchangeRates : String → Option Float64)
    (hc : APIClient.FetchCountries env.countriesExchange = .ok countriesData)
    (hr : APIClient.FetchExchangeRates env.ratesExchange = .ok exchangeRates)
    (hu : env.updateExec = none) :
    (RefreshCountries env w).1 = none ∧
    (RefreshCountries env w).2.db.countries =
      (persistLoop env exchangeRates 0 countriesData w).db.countries ∧
    ∃ rerr, (RefreshCountries env w).2.calls =
      (persistLoop env exchangeRates 0 countriesData w).calls ++
        [Call.updateLastRefreshedAt none, Call.generateSummaryImage rerr] := by
  unfold RefreshCountries
  rw [hc]
  dsimp only
  rw [hr]
  dsimp only
  rw [hu]
  cases env.render with
  | failedBeforeWrite e =>
    exact ⟨rfl, rfl, some e,
      by simp [ImageService.GenerateSummaryImage, Repository.UpdateLastRefreshedAt]⟩
  | failedEncode e file =>
    exact ⟨rfl, rfl, some e,
      by simp [ImageService.GenerateSummaryImage, Repository.UpdateLastRefreshedAt]⟩
  | done file =>
    exact ⟨rfl, rfl, none,
      by simp [ImageService.GenerateSummaryImage, Repository.UpdateLastRefreshedAt]⟩

/-- The error returned by `RefreshCountries`, from the outcomes of the two fetches and of
the metadata update. -/
theorem RefreshCountries_error (env : Env) (w : World) :
    (RefreshCountries env w).1 =
      match APIClient.FetchCountries env.countriesExchange with
      | .error err => some (.wrapped "could not fetch data from countries API: " err)
      | .ok _ =>
        match APIClient.FetchExchangeRates env.ratesExchange with
        | .error err => some (.wrapped "could not fetch data from exchange rate API: " err)
        | .ok _ =>
          env.updateExec.map (fun err => GoError.wrapped "failed to update refresh timestamp: "
            (.wrapped "failed to update last refresh time: " err)) := by
  rcases hc : APIClient.FetchCountries env.countriesExchange with err | countriesData
  · rw [RefreshCountries_of_countries_error env w err hc]
  · rcases hr : APIClient.FetchExchangeRates env.ratesExchange with err | exchangeRates
    · rw [RefreshCountries_of_rates_error env w countriesData err hc hr]
    · rcases hu : env.updateExec with _ | err
      · exact (RefreshCountries_of_update_ok env w countriesData exchangeRates hc hr hu).1
      · rw [RefreshCountries_of_update_error env w countriesData exchangeRates err hc hr hu]
        rfl


theorem upserted_timestamp (env : Env) (exchangeRates : String → Option Float64)
    (made : List Call) (entries : List (Nat × CountryAPIResponse))
    (h : made.map Call.upserted = entries.map (fun p =>
      some (transformCountry (env.draw p.1) p.2 exchangeRates env.now)))
    (c : Call) (country : Country) (hc : c ∈ made) (hu : c.upserted = some country) :
    country.LastRefreshedAt = env.now := by
  have hmem : c.upserted ∈ made.map Call.upserted := List.mem_map.mpr ⟨c, hc, rfl⟩
  rw [h, hu] at hmem
  obtain ⟨p, _, hp⟩ := List.mem_map.mp hmem
  injection hp with hp
  rw [← hp, transformCountry_LastRefreshedAt]

/-- C3. `RefreshCountries` returns success exactly when the country fetch, the rate fetch
and the metadata update succeed; and the returned error is the same in any two cycles
with the same two HTTP exchanges and the same outcome of the metadata update, whatever
the initial states, the outcomes of the upserts and the outcome of the rendering. -/
theorem RefreshCountries_outcome (env : Env) (w : World) :
    ((RefreshCountries env w).1 = none ↔
      (∃ countriesData,
        APIClient.FetchCountries env.countriesExchange = .ok countriesData) ∧
      (∃ exchangeRates,
        APIClient.FetchExchangeRates env.ratesExchange = .ok exchangeRates) ∧
      env.updateExec = none) ∧
    (∀ (env2 : Env) (w2 : World), env2.countriesExchange = env.countriesExchange →
      env2.ratesExchange = env.ratesExchange → env2.updateExec = env.updateExec →
      (RefreshCountries env2 w2).1 = (RefreshCountries env w).1) := by
  constructor
  · rw [RefreshCountries_error]
    rcases APIClient.FetchCountries env.countriesExchange with err | countriesData
    · simp
    · rcases APIClient.FetchExchangeRates env.ratesExchange with err | exchangeRates
      · simp
      · cases env.updateExec <;> simp
  · intro env2 w2 h1 h2 h3
    rw [RefreshCountries_error, RefreshCountries_error, h1, h2, h3]

/-- The calls added by a cycle whose fetches succeed: one upsert call for each entry, in
order, and then calls that are not upserts. -/
theorem RefreshCountries_calls (env : Env) (w : World)
    (countriesData : List CountryAPIResponse) (exchangeRates : String → Option Float64)
    (hc : APIClient.FetchCountries env.countriesExchange = .ok countriesData)
    (hr : APIClient.FetchExchangeRates env.ratesExchange = .ok exchangeRates) :
    ∃ made later : List Call,
      (RefreshCountries env w).2.calls = w.calls ++ made ++ later ∧
      made.map Call.upserted = (countriesData.enumFrom 0).map (fun p =>
        some (transformCountry (env.draw p.1) p.2 exchangeRates env.now)) ∧
      ∀ c, c ∈ later → c.upserted = none := by
  obtain ⟨made, h1, h2⟩ := persistLoop_calls env exchangeRates countriesData 0 w
  rcases hu : env.updateExec with _ | err
  · obtain ⟨_, _, rerr, h3⟩ :=
      RefreshCountries_of_update_ok env w countriesData exchangeRates hc hr hu
    refine ⟨made, [Call.updateLastRefreshedAt none, Call.generateSummaryImage rerr],
      ?_, h2, ?_⟩
    · rw [h3, h1]
    · intro c hmem
      simp only [List.mem_cons, List.mem_singleton, List.not_mem_nil, or_false] at hmem
      rcases hmem with rfl | rfl <;> rfl
  · refine ⟨made, [Call.updateLastRefreshedAt
        (some (.wrapped "failed to update last refresh time: " err))], ?_, h2, ?_⟩
    · rw [RefreshCountries_of_update_error env w countriesData exchangeRates err hc hr hu]
      dsimp only
      rw [h1]
    · intro c hmem
      simp only [List.mem_singleton] at hmem
      rw [hmem]
      rfl

/-- C4. When both fetches succeed, the calls that `RefreshCountries` adds to the record
start with one upsert call for each fetched entry, in the order of the entries, each with
the record made from its entry, and no later call is an upsert; and for every entry whose
upsert succeeds, whatever the outcomes of the other upserts, the record is held by the
table right after its iteration of the loop, and is held by the table at the end of the
cycle when no later entry has a name that the unique index takes as equal, whatever the
collation of the database. -/
theorem RefreshCountries_upserts (env : Env) (w : World)
    (countriesData : List CountryAPIResponse) (exchangeRates : String → Option Float64)
    (hc : APIClient.FetchCountries env.countriesExchange = .ok countriesData)
    (hr : APIClient.FetchExchangeRates env.ratesExchange = .ok exchangeRates) :
    (∃ made later : List Call,
      (RefreshCountries env w).2.calls = w.calls ++ made ++ later ∧
      made.map Call.upserted = (countriesData.enumFrom 0).map (fun p =>
        some (transformCountry (env.draw p.1) p.2 exchangeRates env.now)) ∧
      ∀ c, c ∈ later → c.upserted = none) ∧
    (∀ (k : Nat) (apiCountry : CountryAPIResponse), countriesData[k]? = some apiCountry →
      env.upsertExec k = ExecOutcome.done →
      (persistLoop env exchangeRates 0 (countriesData.take (k + 1)) w).db.Holds env.collation
          (transformCountry (env.draw k) apiCountry exchangeRates env.now) ∧
      ((∀ j other, k < j → countriesData[j]? = some other →
          env.collation.key other.Name ≠ env.collation.key apiCountry.Name) →
        (RefreshCountries env w).2.db.Holds env.collation
          (transformCountry (env.draw k) apiCountry exchangeRates env.now))) := by
  have hdbc : (RefreshCountries env w).2.db.countries =
      (persistLoop env exchangeRates 0 countriesData w).db.countries := by
    rcases hu : env.updateExec with _ | err
    · exact (RefreshCountries_of_update_ok env w countriesData exchangeRates hc hr hu).2.1
    · rw [RefreshCountries_of_update_error env w countriesData exchangeRates err hc hr hu]
  refine ⟨RefreshCountries_calls env w countriesData exchangeRates hc hr, ?_⟩
  · intro k apiCountry hk hdone
    constructor
    · have h := persistLoop_holds env exchangeRates (countriesData.take (k + 1)) 0 w k
        apiCountry (by rw [List.getElem?_take_of_lt (Nat.lt_succ_self k)]; exact hk)
        (by rw [Nat.zero_add]; exact hdone)
        (by
          intro j other hj hget
          rw [List.getElem?_take_eq_none (by omega)] at hget
          exact absurd hget (by simp))
      rw [Nat.zero_add] at h
      exact h
    · intro hlater
      have h := persistLoop_holds env exchangeRates countriesData 0 w k apiCountry hk
        (by rw [Nat.zero_add]; exact hdone) hlater
      rw [Nat.zero_add] at h
      obtain ⟨row, hrow, hstored⟩ := h
      exact ⟨row, by rw [hdbc]; exact hrow, hstored⟩


/-- C4, witness: with five entries of which only the upsert of the third fails, the cycle
returns success and the records of the other four entries are held by the table
afterwards. -/
theorem RefreshCountries_upserts_witness :
    (RefreshCountries oneUpsertFails emptyWorld).1 = none ∧
    oneUpsertFails.upsertExec 2 ≠ ExecOutcome.done ∧
    (RefreshCountries oneUpsertFails emptyWorld).2.db.Holds asciiCollation
      (transformCountry (oneUpsertFails.draw 0) wakanda wakandaRates oneUpsertFails.now) ∧
    (RefreshCountries oneUpsertFails emptyWorld).2.db.Holds asciiCollation
      (transformCountry (oneUpsertFails.draw 1) (plainEntry "Narnia") wakandaRates
        oneUpsertFails.now) ∧
    (RefreshCountries oneUpsertFails emptyWorld).2.db.Holds asciiCollation
      (transformCountry (oneUpsertFails.draw 3) (plainEntry "Utopia") wakandaRates
        oneUpsertFails.now) ∧
    (RefreshCountries oneUpsertFails emptyWorld).2.db.Holds asciiCollation
      (transformCountry (oneUpsertFails.draw 4) (plainEntry "Zembla") wakandaRates
        oneUpsertFails.now) := by
  have key := (RefreshCountries_upserts oneUpsertFails emptyWorld fiveCountries wakandaRates
    rfl rfl).2
  refine ⟨(RefreshCountries_of_update_ok oneUpsertFails emptyWorld fiveCountries wakandaRates
    rfl rfl rfl).1, by decide, ?_, ?_, ?_, ?_⟩
  · refine (key 0 wakanda rfl rfl).2 ?_
    intro j other hj hget
    rcases j with _ | _ | _ | _ | _ | j
    all_goals first
      | omega
      | (simp [fiveCountries] at hget; subst hget; decide)
      | simp [fiveCountries] at hget
  · refine (key 1 (plainEntry "Narnia") rfl rfl).2 ?_
    intro j other hj hget
    rcases j with _ | _ | _ | _ | _ | j
    all_goals first
      | omega
      | (simp [fiveCountries] at hget; subst hget; decide)
      | simp [fiveCountries] at hget
  · refine (key 3 (plainEntry "Utopia") rfl rfl).2 ?_
    intro j other hj hget
    rcases j with _ | _ | _ | _ | _ | j
    all_goals first
      | omega
      | (simp [fiveCountries] at hget; subst hget; decide)
      | simp [fiveCountries] at hget
  · refine (key 4 (plainEntry "Zembla") rfl rfl).2 ?_
    intro j other hj hget
    rcases j with _ | _ | _ | _ | _ | j
    all_goals first
      | omega
      | simp [fiveCountries] at hget

/-- C5. When the country fetch fails or the rate fetch fails, `RefreshCountries` returns
an error and the state is unchanged: the database, the summary image, the printed lines
and the record of calls are as before, so no upsert, no metadata update and no rendering
was done. -/
theorem RefreshCountries_fetch_failure (env : Env) (w : World)
    (h : (∃ err, APIClient.FetchCountries env.countriesExchange = .error err) ∨
      (∃ err, APIClient.FetchExchangeRates env.ratesExchange = .error err)) :
    (RefreshCountries env w).1 ≠ none ∧ (RefreshCountries env w).2 = w := by
  rcases hc : APIClient.FetchCountries env.countriesExchange with err | countriesData
  · rw [RefreshCountries_of_countries_error env w err hc]
    exact ⟨by simp, rfl⟩
  · rcases h with ⟨err, he⟩ | ⟨err, he⟩
    · rw [hc] at he
      cases he
    · rw [RefreshCountries_of_rates_error env w countriesData err hc he]
      exact ⟨by simp, rfl⟩

/-- C5, witness: a cycle whose countries request fails in the transport, and a cycle whose
rate request is answered with status 500, return an error and leave the state as it was. -/
theorem RefreshCountries_fetch_failure_witness :
    ((RefreshCountries countriesFetchFails emptyWorld).1 ≠ none ∧
      (RefreshCountries countriesFetchFails emptyWorld).2 = emptyWorld) ∧
    ((RefreshCountries ratesFetchFails emptyWorld).1 ≠ none ∧
      (RefreshCountries ratesFetchFails emptyWorld).2 = emptyWorld) :=
  ⟨RefreshCountries_fetch_failure countriesFetchFails emptyWorld (Or.inl ⟨_, rfl⟩),
    RefreshCountries_fetch_failure ratesFetchFails emptyWorld (Or.inr ⟨_, rfl⟩)⟩

/-- C6. When both fetches succeed and the metadata update fails, `RefreshCountries`
returns the error of the update, wrapped; the database is the one the loop left, nothing
is undone; the summary image is unchanged and no added call is a call of the renderer;
and every record whose upsert succeeded, when no later entry has a name that the unique
index takes as equal, is held by the table, whatever the collation of the database. -/
theorem RefreshCountries_timestamp_failure (env : Env) (w : World)
    (countriesData : List CountryAPIResponse) (exchangeRates : String → Option Float64)
    (err : GoError)
    (hc : APIClient.FetchCountries env.countriesExchange = .ok countriesData)
    (hr : APIClient.FetchExchangeRates env.ratesExchange = .ok exchangeRates)
    (hu : env.updateExec = some err) :
    (RefreshCountries env w).1 = some (.wrapped "failed to update refresh timestamp: "
      (.wrapped "failed to update last refresh time: " err)) ∧
    (RefreshCountries env w).2.db = (persistLoop env exchangeRates 0 countriesData w).db ∧
    (RefreshCountries env w).2.db.lastRefreshedAt = w.db.lastRefreshedAt ∧
    (RefreshCountries env w).2.summaryImage = w.summaryImage ∧
    (∃ made : List Call, (RefreshCountries env w).2.calls = w.calls ++ made ∧
      ∀ c, c ∈ made → c.isRender = false) ∧
    (∀ (k : Nat) (apiCountry : CountryAPIResponse), countriesData[k]? = some apiCountry →
      env.upsertExec k = ExecOutcome.done →
      (∀ j other, k < j → countriesData[j]? = some other →
        env.collation.key other.Name ≠ env.collation.key apiCountry.Name) →
      (RefreshCountries env w).2.db.Holds env.collation
        (transformCountry (env.draw k) apiCountry exchangeRates env.now)) := by
  rw [RefreshCountries_of_update_error env w countriesData exchangeRates err hc hr hu]
  refine ⟨rfl, rfl, ?_, ?_, ?_, ?_⟩
  · exact persistLoop_lastRefreshedAt env exchangeRates countriesData 0 w
  · exact persistLoop_summaryImage env exchangeRates countriesData 0 w
  · obtain ⟨made, h1, h2⟩ := persistLoop_calls env exchangeRates countriesData 0 w
    refine ⟨made ++ [Call.updateLastRefreshedAt
      (some (.wrapped "failed to update last refresh time: " err))], ?_, ?_⟩
    · dsimp only
      rw [h1, List.append_assoc]
    · intro c hmem
      rcases List.mem_append.mp hmem with hm | hm
      · have hmem2 : c.upserted ∈ made.map Call.upserted := List.mem_map.mpr ⟨c, hm, rfl⟩
        rw [h2] at hmem2
        obtain ⟨p, _, hp⟩ := List.mem_map.mp hmem2
        cases c with
        | upsertCountry country e => rfl
        | updateLastRefreshedAt e => rfl
        | generateSummaryImage e => cases hp
      · simp only [List.mem_singleton] at hm
        rw [hm]
        rfl
  · intro k apiCountry hk hdone hlater
    have h := persistLoop_holds env exchangeRates countriesData 0 w k apiCountry hk
      (by rw [Nat.zero_add]; exact hdone) hlater
    rw [Nat.zero_add] at h
    exact h

/-- C6, witness: in the cycle with five entries where the third upsert and the metadata
update fail, an error is returned, the image is still absent and the record of the entry
after the failed one is held by the table. -/
theorem RefreshCountries_timestamp_failure_witness :
    (RefreshCountries timestampFails emptyWorld).1 =
      some (.wrapped "failed to update refresh timestamp: "
        (.wrapped "failed to update last refresh time: " (.text "connection refused"))) ∧
    (RefreshCountries timestampFails emptyWorld).2.summaryImage = none ∧
    (RefreshCountries timestampFails emptyWorld).2.db.Holds asciiCollation
      (transformCountry (timestampFails.draw 4) (plainEntry "Zembla") wakandaRates
        timestampFails.now) := by
  have key := RefreshCountries_timestamp_failure timestampFails emptyWorld fiveCountries
    wakandaRates (.text "connection refused") rfl rfl rfl
  refine ⟨key.1, key.2.2.2.1, key.2.2.2.2.2 4 (plainEntry "Zembla") rfl rfl ?_⟩
  intro j other hj hget
  rcases j with _ | _ | _ | _ | _ | j
  all_goals first
    | omega
    | simp [fiveCountries] at hget

/-- C7, the code at the failing input: for the cycle in which both fetches succeed and
only the metadata update fails, the refresh handler answers with the status 503 and the
error text of an unavailable external data source, the same status and error text as for
the cycle whose countries fetch fails; the two answers differ in the details text only. -/
theorem RefreshCountries_handler_timestamp_failure :
    (CountryHandler.RefreshCountries timestampFails emptyWorld).1 =
      { status := 503
        body := .errorResponse "External data source unavailable"
          (.text ("failed to update refresh timestamp: " ++
            "failed to update last refresh time: connection refused")) } ∧
    (CountryHandler.RefreshCountries countriesFetchFails emptyWorld).1 =
      { status := 503
        body := .errorResponse "External data source unavailable"
          (.text ("could not fetch data from countries API: " ++
            "failed to fetch countries: dial tcp: i/o timeout")) } := by
  constructor
  · unfold CountryHandler.RefreshCountries
    rw [RefreshCountries_of_update_error timestampFails emptyWorld fiveCountries wakandaRates
      (.text "connection refused") rfl rfl rfl]
    rfl
  · unfold CountryHandler.RefreshCountries
    rw [RefreshCountries_of_countries_error countriesFetchFails emptyWorld
      (.wrapped "failed to fetch countries: " (.text "dial tcp: i/o timeout")) rfl]
    rfl

/-- C10. `transformCountry` sets `last_refreshed_at` to the timestamp it is given,
whatever the entry; and every record that one call of `RefreshCountries` passes to
`UpsertCountry` carries the one timestamp `now` taken before the loop. -/
theorem RefreshCountries_shared_timestamp (env : Env) (w : World) :
    (∀ (draw : Float64) (apiCountry : CountryAPIResponse)
        (exchangeRates : String → Option Float64) (refreshTime : Time),
      (transformCountry draw apiCountry exchangeRates refreshTime).LastRefreshedAt =
        refreshTime) ∧
    ∃ made : List Call, (RefreshCountries env w).2.calls = w.calls ++ made ∧
      ∀ c country, c ∈ made → c.upserted = some country →
        country.LastRefreshedAt = env.now := by
  refine ⟨transformCountry_LastRefreshedAt, ?_⟩
  rcases hc : APIClient.FetchCountries env.countriesExchange with err | countriesData
  · rw [RefreshCountries_of_countries_error env w err hc]
    exact ⟨[], by simp, by simp⟩
  · rcases hr : APIClient.FetchExchangeRates env.ratesExchange with err | exchangeRates
    · rw [RefreshCountries_of_rates_error env w countriesData err hc hr]
      exact ⟨[], by simp, by simp⟩
    · obtain ⟨made, later, h1, h2, h3⟩ :=
        RefreshCountries_calls env w countriesData exchangeRates hc hr
      refine ⟨made ++ later, by rw [h1, List.append_assoc], ?_⟩
      intro c country hmem hu
      rcases List.mem_append.mp hmem with hm | hm
      · exact upserted_timestamp env exchangeRates made _ h2 c country hm hu
      · rw [h3 c hm] at hu
        cases hu

end CountryService

/-! ### Listing and deleting -/

namespace Float64

theorem le_sort_total (x y : Float64) : le x y = true ∨ le y x = true := by
  simp only [le, decide_eq_true_eq]
  rcases lt_trichotomy x.sortKey.1 y.sortKey.1 with h | h | h
  · exact Or.inl (Or.inl h)
  · rcases le_total x.sortKey.2 y.sortKey.2 with h2 | h2
    · exact Or.inl (Or.inr ⟨h, h2⟩)
    · exact Or.inr (Or.inr ⟨h.symm, h2⟩)
  · exact Or.inr (Or.inl h)

theorem le_sort_trans (x y z : Float64) (hxy : le x y = true) (hyz : le y z = true) :
    le x z = true := by
  simp only [le, decide_eq_true_eq] at hxy hyz ⊢
  rcases hxy with h1 | ⟨h1, h2⟩
  · rcases hyz with h3 | ⟨h3, _⟩
    · exact Or.inl (lt_trans h1 h3)
    · exact Or.inl (h3 ▸ h1)
  · rcases hyz with h3 | ⟨h3, h4⟩
    · exact Or.inl (h1 ▸ h3)
    · exact Or.inr ⟨h1.trans h3, le_trans h2 h4⟩

theorem le_sort_fin (a b : Bool) (x y : ℚ) :
    le (fin a x) (fin b y) = true ↔ signed a x ≤ signed b y := by
  simp [le, sortKey]

end Float64

namespace Repository

theorem gdpOrder_total (desc : Bool) (a b : Country) :
    gdpOrder desc a b = true ∨ gdpOrder desc b a = true := by
  unfold gdpOrder
  cases a.EstimatedGDP with
  | none => cases b.EstimatedGDP <;> simp
  | some x =>
    cases b.EstimatedGDP with
    | none => simp
    | some y =>
      cases desc
      · simpa using Float64.le_sort_total x y
      · simpa using Float64.le_sort_total y x

theorem gdpOrder_trans (desc : Bool) (a b c : Country) (hab : gdpOrder desc a b = true)
    (hbc : gdpOrder desc b c = true) : gdpOrder desc a c = true := by
  unfold gdpOrder at hab hbc ⊢
  cases ha : a.EstimatedGDP with
  | none =>
    rw [ha] at hab
    cases hb : b.EstimatedGDP with
    | none =>
      rw [hb] at hbc
      cases hc : c.EstimatedGDP with
      | none => rfl
      | some z => rw [hc] at hbc; simp at hbc
    | some y => rw [hb] at hab; simp at hab
  | some x =>
    rw [ha] at hab
    cases hc : c.EstimatedGDP with
    | none => rfl
    | some z =>
      rw [hc] at hbc
      cases hb : b.EstimatedGDP with
      | none => rw [hb] at hbc; simp at hbc
      | some y =>
        rw [hb] at hab hbc
        cases desc
        · simp only [Bool.false_eq_true, if_false] at hab hbc ⊢
          exact Float64.le_sort_trans x y z hab hbc
        · simp only [if_true] at hab hbc ⊢
          exact Float64.le_sort_trans z y x hbc hab

/-- The rows sorted by `gdpOrder` are a rearrangement of the rows in which every row
stands before the rows that the order puts after it. -/
theorem insertionSort_gdpOrder (desc : Bool) (rows : List Country) :
    (rows.insertionSort (fun a b => gdpOrder desc a b = true)).Perm rows ∧
    (rows.insertionSort (fun a b => gdpOrder desc a b = true)).Pairwise
      (fun a b => gdpOrder desc a b = true) := by
  haveI : IsTotal Country (fun a b => gdpOrder desc a b = true) :=
    ⟨gdpOrder_total desc⟩
  haveI : IsTrans Country (fun a b => gdpOrder desc a b = true) :=
    ⟨gdpOrder_trans desc⟩
  exact ⟨List.perm_insertionSort _ rows, List.sorted_insertionSort _ rows⟩

/-- C11. For every content of the table, every filter and every collation, when the
query is read to the end, `GetAllCountries` with the selector `gdp_desc` returns the
selected rows rearranged so that no row without `estimated_gdp` stands before a row with one and the values
present do not increase along the list; with `gdp_asc` the rows without a value also
come last and the values present do not decrease. The order of the values is that of
`Float64.le`, which on finite values is the order of the numbers. -/
theorem GetAllCountries_gdp_sorted (coll : Collation) (region currency : String)
    (db : Database) :
    (∃ rows, GetAllCountries coll .done region currency "gdp_desc" db = .ok rows ∧
      rows.Perm (db.countries.filter (whereClause coll region currency)) ∧
      rows.Pairwise (fun a b =>
        (a.EstimatedGDP = none → b.EstimatedGDP = none) ∧
        ∀ x y, a.EstimatedGDP = some x → b.EstimatedGDP = some y →
          Float64.le y x = true)) ∧
    (∃ rows, GetAllCountries coll .done region currency "gdp_asc" db = .ok rows ∧
      rows.Perm (db.countries.filter (whereClause coll region currency)) ∧
      rows.Pairwise (fun a b =>
        (a.EstimatedGDP = none → b.EstimatedGDP = none) ∧
        ∀ x y, a.EstimatedGDP = some x → b.EstimatedGDP = some y →
          Float64.le x y = true)) ∧
    (∀ (a b : Bool) (x y : ℚ), Float64.le (Float64.fin a x) (Float64.fin b y) = true ↔
      Float64.signed a x ≤ Float64.signed b y) := by
  refine ⟨?_, ?_, Float64.le_sort_fin⟩
  · obtain ⟨hperm, hsorted⟩ :=
      insertionSort_gdpOrder true (db.countries.filter (whereClause coll region currency))
    refine ⟨_, rfl, hperm, hsorted.imp ?_⟩
    intro a b hab
    unfold gdpOrder at hab
    constructor
    · intro ha
      rw [ha] at hab
      cases hb : b.EstimatedGDP with
      | none => rfl
      | some y => rw [hb] at hab; simp at hab
    · intro x y ha hb
      rw [ha, hb] at hab
      simpa using hab
  · obtain ⟨hperm, hsorted⟩ :=
      insertionSort_gdpOrder false (db.countries.filter (whereClause coll region currency))
    refine ⟨_, rfl, hperm, hsorted.imp ?_⟩
    intro a b hab
    unfold gdpOrder at hab
    constructor
    · intro ha
      rw [ha] at hab
      cases hb : b.EstimatedGDP with
      | none => rfl
      | some y => rw [hb] at hab; simp at hab
    · intro x y ha hb
      rw [ha, hb] at hab
      simpa using hab


theorem rowsAffected_eq_zero (coll : Collation) (name : String) (db : Database)
    (h : ∀ row, row ∈ db.countries → coll.lowerKey row.Name ≠ coll.lowerKey name) :
    rowsAffected coll name db = 0 := by
  unfold rowsAffected
  rw [List.length_eq_zero, List.filter_eq_nil_iff]
  intro row hrow
  simpa using h row hrow

theorem deleteRows_eq_self (coll : Collation) (name : String) (db : Database)
    (h : ∀ row, row ∈ db.countries → coll.lowerKey row.Name ≠ coll.lowerKey name) :
    deleteRows coll name db = db := by
  unfold deleteRows
  have hf : db.countries.filter
      (fun row => decide (coll.lowerKey row.Name ≠ coll.lowerKey name)) = db.countries := by
    rw [List.filter_eq_self]
    intro row hrow
    simpa using h row hrow
  rw [hf]

theorem deleteRows_no_match (coll : Collation) (name : String) (db : Database) :
    ∀ row, row ∈ (deleteRows coll name db).countries →
      coll.lowerKey row.Name ≠ coll.lowerKey name := by
  intro row hrow
  unfold deleteRows at hrow
  simpa using (List.mem_filter.mp hrow).2

theorem DeleteCountryByName_done_db (coll : Collation) (name : String) (db : Database) :
    (DeleteCountryByName coll .done name db).2 = deleteRows coll name db := by
  unfold DeleteCountryByName
  dsimp only
  split_ifs <;> rfl

theorem DeleteCountryByName_of_no_match (coll : Collation) (name : String) (db : Database)
    (h : ∀ row, row ∈ db.countries → coll.lowerKey row.Name ≠ coll.lowerKey name) :
    DeleteCountryByName coll .done name db = (some GoError.errNoRows, db) := by
  unfold DeleteCountryByName
  dsimp only
  rw [if_pos (rowsAffected_eq_zero coll name db h), deleteRows_eq_self coll name db h]

end Repository

namespace CountryHandler

/-- C12. Whatever the collation of the database and its function `LOWER`: for a name
that matches no stored row, that is, `LOWER(name)` is equal for the database to `LOWER`
of no stored name, when the statement is executed, `DeleteCountryByName` returns
`sql.ErrNoRows`, which is not a wrapped error, and leaves the database as it was; the
delete handler, called with that name as its non-empty path parameter, answers 404
`Country not found`; and after a delete of the name that returned no error, the next
delete of the name returns `sql.ErrNoRows`. -/
theorem DeleteCountryByName_not_found (coll : Collation) (name : String) (db : Database)
    (h : ∀ row, row ∈ db.countries → coll.lowerKey row.Name ≠ coll.lowerKey name) :
    Repository.DeleteCountryByName coll .done name db = (some GoError.errNoRows, db) ∧
    (∀ msg cause, (Repository.DeleteCountryByName coll .done name db).1 ≠
      some (GoError.wrapped msg cause)) ∧
    (name ≠ "" →
      (DeleteCountryByName coll .done name db).1 =
        { status := 404, body := .errorResponse "Country not found" .omitted }) ∧
    (∀ before : Database,
      (Repository.DeleteCountryByName coll .done name before).1 = none →
      (Repository.DeleteCountryByName coll .done name
        (Repository.DeleteCountryByName coll .done name before).2).1 =
          some GoError.errNoRows) := by
  have hrepo := Repository.DeleteCountryByName_of_no_match coll name db h
  refine ⟨hrepo, ?_, ?_, ?_⟩
  · intro msg cause
    rw [hrepo]
    simp
  · intro hname
    unfold DeleteCountryByName
    rw [if_neg hname, hrepo]
    rfl
  · intro before _
    rw [Repository.DeleteCountryByName_done_db,
      Repository.DeleteCountryByName_of_no_match coll name _
        (Repository.deleteRows_no_match coll name before)]

/-- C12, witness: in the table with the rows Wakanda and Narnia, compared as in the
examples, deleting `Oz` returns `sql.ErrNoRows` and the handler answers 404; deleting
`WAKANDA` succeeds and deleting it again returns `sql.ErrNoRows`. -/
theorem DeleteCountryByName_not_found_witness :
    (Repository.DeleteCountryByName asciiCollation .done "Oz" twoRows).1 =
      some GoError.errNoRows ∧
    (DeleteCountryByName asciiCollation .done "Oz" twoRows).1.status = 404 ∧
    (Repository.DeleteCountryByName asciiCollation .done "WAKANDA" twoRows).1 = none ∧
    (Repository.DeleteCountryByName asciiCollation .done "WAKANDA"
      (Repository.DeleteCountryByName asciiCollation .done "WAKANDA" twoRows).2).1 =
        some GoError.errNoRows := by
  have key := DeleteCountryByName_not_found asciiCollation "Oz" twoRows (by decide)
  have key2 := DeleteCountryByName_not_found asciiCollation "WAKANDA" emptyWorld.db
    (by decide)
  have hfirst :
      (Repository.DeleteCountryByName asciiCollation .done "WAKANDA" twoRows).1 = none := by
    decide
  refine ⟨?_, ?_, hfirst, key2.2.2.2 twoRows hfirst⟩
  · rw [key.1]
  · rw [key.2.2.1 (by decide)]

end CountryHandler

namespace CountryService

/-- C13, as amended. The population of the record made by `transformCountry` is the
population of the raw entry, copied unchanged; it is non-negative exactly when the raw
population is. -/
theorem transformCountry_population (draw : Float64) (apiCountry : CountryAPIResponse)
    (exchangeRates : String → Option Float64) (refreshTime : Time) :
    (transformCountry draw apiCountry exchangeRates refreshTime).Population =
      apiCountry.Population ∧
    (0 ≤ (transformCountry draw apiCountry exchangeRates refreshTime).Population ↔
      0 ≤ apiCountry.Population) := by
  rw [transformCountry_eq]
  exact ⟨rfl, Iff.rfl⟩

/-- C13, counterexample to the claim as stated: the raw entry with population -1 gets a
record with population -1, which is negative. -/
theorem transformCountry_population_counterexample :
    (transformCountry halfDraw negativePopulation wakandaRates 0).Population = -1 ∧
    ¬ (0 ≤ (transformCountry halfDraw negativePopulation wakandaRates 0).Population) := by
  rw [transformCountry_eq]
  exact ⟨rfl, by decide⟩

end CountryService

end CountryCurrency
